import Mathlib

/-!
# Verification of the documentation-automation pipeline

A shallow embedding of the change-driven documentation regeneration pipeline:

* `scripts/watch-and-update.js` — the change aggregator/scheduler
  (`ContinuousDocsUpdater`: `analyzeChanges`, `processAccumulatedChanges`,
  `quickUpdate`, `aiEnhancedUpdate`);
* `scripts/enhance-with-ai.js` — the AI enhancer
  (`AIDocumentationEnhancer`: `callClaude`, `enhanceModuleDocumentation`,
  `enhanceArchitectureOverview`, the `TYPES_CHANGED` flag);
* the doc generator (`generateAllDocs`, `generateModuleDocs`,
  `generateApiReference`, `updateDocsConfig`).

File-system state is modelled as a partial map from path strings to file
contents; each external effect (the Anthropic API, shell commands run by the
watcher) is modelled by an explicit oracle describing the outcomes the
external world returns.  JavaScript string operations (`String.prototype.split`,
`String.prototype.includes`) are re-implemented over `List Char` so that all
definitions compute by kernel reduction.
-/

/-! ## JavaScript string primitives -/

/-- `stripPfx p s` returns `some rest` when `s = p ++ rest`. -/
def stripPfx : List Char → List Char → Option (List Char)
  | [], s => some s
  | _ :: _, [] => none
  | p :: ps, c :: cs => if p = c then stripPfx ps cs else none

/-- First occurrence of `sep` in a character list: returns the part before the
first occurrence and the part after it. `none` when `sep` does not occur. -/
def splitFirst (sep : List Char) : List Char → Option (List Char × List Char)
  | [] => none
  | c :: cs =>
    match stripPfx sep (c :: cs) with
    | some rest => some ([], rest)
    | none =>
      match splitFirst sep cs with
      | some (b, a) => some (c :: b, a)
      | none => none

/-- Fuel-driven repeated split (the fuel is an upper bound on the number of
separator occurrences; `length s` always suffices for a non-empty separator). -/
def splitAllAux (sep : List Char) : Nat → List Char → List (List Char)
  | 0, s => [s]
  | fuel + 1, s =>
    match splitFirst sep s with
    | none => [s]
    | some (b, a) => b :: splitAllAux sep fuel a

/-- JavaScript `s.split(sep)` for a non-empty separator. -/
def jsSplit (s sep : String) : List String :=
  (splitAllAux sep.data s.data.length s.data).map String.mk

/-- JavaScript `s.includes(pat)` for a non-empty pattern. -/
def containsSub (s pat : String) : Bool := (splitFirst pat.data s.data).isSome

/-! ## File-system model -/

/-- The documentation tree: a partial map from relative paths to file bytes. -/
def FS := String → Option String

/-- `fs.writeFileSync(p, c)`: overwrite (or create) exactly the file `p`. -/
def fsWrite (fs : FS) (p c : String) : FS := fun q => if q = p then some c else fs q

/-- Sequentially write a list of `(path, content)` pairs. -/
def fsWriteAll (fs : FS) : List (String × String) → FS
  | [] => fs
  | (p, c) :: rest => fsWriteAll (fsWrite fs p c) rest

/-- The content of the last write to `p` in a write list, if any. -/
def findLastWrite : List (String × String) → String → Option String
  | [], _ => none
  | (q, c) :: rest, p =>
    match findLastWrite rest p with
    | some c' => some c'
    | none => if p = q then some c else none

/-! ## Change Detector (`analyzeChanges`, watch-and-update.js lines 99–132) -/

/-- The change-set produced by `analyzeChanges` (after the `Set` of module
names has been converted back to an array, preserving insertion order). -/
structure ChangeAnalysis where
  modules : List String
  types : Bool
  components : Bool
  services : Bool
  deriving DecidableEq, Repr

/-- `Set.prototype.add`: append if not already present (JS sets preserve
insertion order and deduplicate). -/
def addDistinct (l : List String) (x : String) : List String :=
  if x ∈ l then l else l ++ [x]

/-- One iteration of the `for (const filePath of filePaths)` loop in
`analyzeChanges`: classify a single path into the accumulating analysis. -/
def analyzeStep (a : ChangeAnalysis) (filePath : String) : ChangeAnalysis :=
  let a :=
    if containsSub filePath "/modules/" then
      let moduleName :=
        (jsSplit ((jsSplit filePath "/modules/").getD 1 "") "/").getD 0 ""
      { a with modules := addDistinct a.modules moduleName }
    else a
  let a := if containsSub filePath "generated.d.ts" then { a with types := true } else a
  let a := if containsSub filePath "/components/" then { a with components := true } else a
  if containsSub filePath "/services/" then { a with services := true } else a

/-- `analyzeChanges(filePaths)`: pure classification of a list of file paths
into a change-set (modules touched, types/components/services flags). -/
def analyzeChanges (filePaths : List String) : ChangeAnalysis :=
  filePaths.foldl analyzeStep ⟨[], false, false, false⟩

/-- A path is recognized when it matches at least one classification rule of
`analyzeChanges`. -/
def recognizedPath (p : String) : Bool :=
  containsSub p "/modules/" || containsSub p "generated.d.ts" ||
    containsSub p "/components/" || containsSub p "/services/"

/-! ## The `TYPES_CHANGED` environment flag

Producer (`aiEnhancedUpdate`, watch-and-update.js line 166):
`process.env.TYPES_CHANGED = analysis.types ? 'true' : ''`.
Consumer (`AIDocumentationEnhancer` constructor, enhance-with-ai.js line 24):
`this.typesChanged = Boolean(process.env.TYPES_CHANGED)`.
An environment variable is `Option String` (`none` = unset); JavaScript
`Boolean` on a string is truthiness, i.e. non-emptiness. -/

/-- `Boolean(process.env.TYPES_CHANGED)` — the enhancer's types-changed flag. -/
def typesChangedFlag : Option String → Bool
  | none => false
  | some s => !(s == "")

/-- `analysis.types ? 'true' : ''` — the watcher's encoding of the flag. -/
def encodeTypesChanged (b : Bool) : String := if b then "true" else ""

/-! ## AI Enhancer (`enhance-with-ai.js`)

The Anthropic API is modelled by an oracle: a script of outcomes, one entry
consumed per `anthropic.messages.create` invocation. -/

/-- Outcome of one `anthropic.messages.create` call: a successful response
text, an HTTP 429 (`error.status === 429`), or any other error. -/
inductive CallResult where
  | success (text : String)
  | rateLimited
  | failure
  deriving DecidableEq, Repr

/-- `callClaude(prompt)` (enhance-with-ai.js lines 156–182).  On success it
returns the response text; on a non-429 error it returns `null` (`none`); on a
429 it waits 60 s and retries by calling itself recursively (`return
this.callClaude(prompt)`), consuming the next scripted outcome.  Result:
(returned value, remaining script, number of 60-second backoff waits).
An exhausted script behaves like a non-429 error (never reached in the
theorems below, which fully script every call). -/
def callClaude : List CallResult → Option String × List CallResult × Nat
  | [] => (none, [], 0)
  | .success t :: rest => (some t, rest, 0)
  | .failure :: rest => (none, rest, 0)
  | .rateLimited :: rest =>
    let (r, rem, waits) := callClaude rest
    (r, rem, waits + 1)

/-- `path.join(__dirname, `../modules/${moduleName}.mdx`)` (lines 261, 266). -/
def moduleDocPath (moduleName : String) : String := "../modules/" ++ moduleName ++ ".mdx"

/-- `readModuleDoc` (lines 260–263): return the page's content when the file
exists, otherwise the empty string. -/
def readModuleDoc (fs : FS) (moduleName : String) : String :=
  (fs (moduleDocPath moduleName)).getD ""

/-- `writeModuleDoc` (lines 265–268). -/
def writeModuleDoc (fs : FS) (moduleName content : String) : FS :=
  fsWrite fs (moduleDocPath moduleName) content

/-- `enhanceModuleDocumentation(moduleName)` (lines 89–138): read the current
page; when it is missing (read back as the falsy `''`), skip with no write and
no error; otherwise call Claude and overwrite the page only on a non-null
response.  The function is total: no error propagates to the caller. -/
def enhanceModuleDocumentation (fs : FS) (moduleName : String)
    (script : List CallResult) : FS × List CallResult :=
  let currentDoc := readModuleDoc fs moduleName
  if currentDoc == "" then (fs, script)
  else
    match callClaude script with
    | (some enhancedDoc, rest, _) => (writeModuleDoc fs moduleName enhancedDoc, rest)
    | (none, rest, _) => (fs, rest)

/-- `path.join(__dirname, '../architecture/overview.mdx')` (line 359). -/
def overviewPath : String := "../architecture/overview.mdx"

/-- The heading spliced between the old overview content and the insights. -/
def insightsHeading : String := "\n\n## AI-Generated Insights\n\n"

/-- `enhanceArchitectureOverview(insights)` (lines 356–366): a falsy insights
value (`null` or `''`) is a no-op; otherwise, when the overview page exists its
current content is re-read and the insights are appended under an
"AI-Generated Insights" heading; when the page does not exist nothing is
written. -/
def enhanceArchitectureOverview (fs : FS) (insights : Option String) : FS :=
  match insights with
  | none => fs
  | some ins =>
    if ins == "" then fs
    else
      match fs overviewPath with
      | none => fs
      | some currentContent =>
        fsWrite fs overviewPath (currentContent ++ insightsHeading ++ ins)

/-! ## Change Aggregator / Scheduler (`watch-and-update.js`)

A batch run is modelled as a function from the watcher state and an oracle
(the outcomes the shell and git return) to the next state plus a trace of
observable actions: console lines, executed commands, and environment-variable
assignments, in program order. -/

/-- An observable action of the watcher. -/
inductive Act where
  | log (line : String)
  | exec (cmd : String)
  | setEnv (name value : String)
  deriving DecidableEq, Repr

/-- Outcomes of the external commands a batch may run, plus the relevant
environment/configuration the watcher consults. -/
structure Oracles where
  syncTypes : Except String Unit
  generateDocs : Except String Unit
  gitStatus : Except String String
  gitAdd : Except String Unit
  gitCommit : Except String Unit
  gitPush : Except String Unit
  enhanceScript : Except String Unit
  timestamp : String
  autoPush : Bool
  hasAnthropicKey : Bool
  hasOpenAIKey : Bool

/-- JavaScript `Array.prototype.join`. -/
def jsJoin (sep : String) : List String → String
  | [] => ""
  | [x] => x
  | x :: xs => x ++ sep ++ jsJoin sep xs

/-- JavaScript whitespace recognized by `String.prototype.trim` (the cases
relevant to `git status --porcelain` output). -/
def isWsChar (c : Char) : Bool := c = ' ' || c = '\t' || c = '\n' || c = '\r'

/-- JavaScript `s.trim()`. -/
def jsTrim (s : String) : String :=
  String.mk (((s.data.dropWhile isWsChar).reverse.dropWhile isWsChar).reverse)

/-- The detailed commit message built in `commitChanges` (lines 183–190). -/
def detailedCommitMessage (message : String) (analysis : ChangeAnalysis)
    (timestamp : String) : String :=
  let joined := jsJoin ", " analysis.modules
  message ++ "\n\nModules updated: " ++ (if joined == "" then "none" else joined) ++
    "\nTypes updated: " ++ (if analysis.types then "yes" else "no") ++
    "\nComponents updated: " ++ (if analysis.components then "yes" else "no") ++
    "\nServices updated: " ++ (if analysis.services then "yes" else "no") ++
    "\n\nAuto-generated at: " ++ timestamp

/-- `commitChanges(message, analysis)` (lines 178–205): check `git status
--porcelain`; on a dirty tree stage everything, commit with the detailed
message, optionally push; any failure is caught and logged (`❌ Commit
failed:`), never thrown to the caller. -/
def commitChanges (message : String) (analysis : ChangeAnalysis) (o : Oracles) :
    List Act :=
  [.exec "git status --porcelain"] ++
  match o.gitStatus with
  | .error e => [.log ("❌ Commit failed: " ++ e)]
  | .ok stdout =>
    if jsTrim stdout == "" then []
    else
      let msg := detailedCommitMessage message analysis o.timestamp
      [.exec "git add ."] ++
      match o.gitAdd with
      | .error e => [.log ("❌ Commit failed: " ++ e)]
      | .ok _ =>
        [.exec ("git commit -m \"" ++ msg ++ "\"")] ++
        match o.gitCommit with
        | .error e => [.log ("❌ Commit failed: " ++ e)]
        | .ok _ =>
          if o.autoPush then
            [.exec "git push"] ++
            match o.gitPush with
            | .error e => [.log ("❌ Commit failed: " ++ e)]
            | .ok _ => [.log "📤 Changes committed successfully"]
          else [.log "📤 Changes committed successfully"]

/-- Tail of `quickUpdate` after the optional `npm run sync:types` step:
regenerate the deterministic docs, then auto-commit; a regeneration failure is
caught inside `quickUpdate` itself (logged as `❌ Quick update failed:`) and
does not propagate. -/
def quickUpdateAfterSync (analysis : ChangeAnalysis) (o : Oracles) : List Act :=
  [.exec "node scripts/generate-docs.js"] ++
  match o.generateDocs with
  | .error e => [.log ("❌ Quick update failed: " ++ e)]
  | .ok _ => commitChanges "📝 Quick docs update" analysis o

/-- `quickUpdate(analysis)` (lines 134–152): sync types when they changed,
regenerate deterministic documentation, auto-commit; every failure is caught
in the function's own `try`/`catch` and only logged. -/
def quickUpdate (analysis : ChangeAnalysis) (o : Oracles) : List Act :=
  [.log "⚡ Running quick documentation update..."] ++
  if analysis.types then
    [.exec "npm run sync:types"] ++
    match o.syncTypes with
    | .error e => [.log ("❌ Quick update failed: " ++ e)]
    | .ok _ => quickUpdateAfterSync analysis o
  else quickUpdateAfterSync analysis o

/-- `aiEnhancedUpdate(analysis)` (lines 154–176): skip (with a log line) when
no AI API key is configured; otherwise export the change-set to the enhancer
via `CHANGED_MODULES` / `TYPES_CHANGED`, run it, and commit; failures are
caught and logged. -/
def aiEnhancedUpdate (analysis : ChangeAnalysis) (o : Oracles) : List Act :=
  [.log "🤖 Running AI-enhanced documentation update..."] ++
  if !(o.hasAnthropicKey || o.hasOpenAIKey) then
    [.log "⚠️ No AI API keys found, skipping AI enhancement"]
  else
    [.setEnv "CHANGED_MODULES" (jsJoin "\n" analysis.modules),
     .setEnv "TYPES_CHANGED" (encodeTypesChanged analysis.types),
     .exec "node scripts/enhance-with-ai.js"] ++
    match o.enhanceScript with
    | .error e => [.log ("❌ AI enhancement failed: " ++ e)]
    | .ok _ => commitChanges "🤖 AI-enhanced docs update" analysis o

/-- The watcher's mutable state: the accumulating pending change set (a JS
`Set`: insertion-ordered, deduplicated) and the in-flight-batch flag. -/
structure WatcherState where
  pendingChanges : List String
  isProcessing : Bool
  deriving DecidableEq, Repr

/-- `handleFileChange` / `handleFileDelete`: merge one path into the pending
set (the debounce-timer reset has no effect on the pending set itself). -/
def handleFileChange (st : WatcherState) (filePath : String) : WatcherState :=
  { st with pendingChanges := addDistinct st.pendingChanges filePath }

/-- `this.aiUpdateThreshold = 3` (line 25). -/
def aiUpdateThreshold : Nat := 3

/-- `processAccumulatedChanges()` (lines 66–97): a no-op when a batch is
already processing or nothing is pending; otherwise snapshot the pending set,
clear it (before any processing), run the quick update, run the AI-enhanced
update when the number of distinct changed paths meets the threshold, and
reset `isProcessing` in the `finally`.  Both sub-updates catch their own
errors, so the outer `catch` (which would log `❌ Error processing changes:`
without the change-set) is unreachable and the success line is always logged. -/
def processAccumulatedChanges (st : WatcherState) (o : Oracles) :
    WatcherState × List Act :=
  if st.isProcessing || st.pendingChanges.isEmpty then (st, [])
  else
    let changes := st.pendingChanges
    let changeAnalysis := analyzeChanges changes
    let trace :=
      [.log ("🔄 Processing " ++ toString changes.length ++ " accumulated changes...")] ++
      quickUpdate changeAnalysis o ++
      (if changes.length ≥ aiUpdateThreshold then aiEnhancedUpdate changeAnalysis o
       else []) ++
      [.log "✅ Documentation updated successfully"]
    ({ pendingChanges := [], isProcessing := false }, trace)

/-- The console lines of a trace, in order. -/
def logLines (tr : List Act) : List String :=
  tr.filterMap fun a => match a with | .log l => some l | _ => none

/-! ## Doc Generator (`generate-docs.js`)

`ModuleDescriptor` mirrors one entry of the static `config.modules` array; the
page templates below are the source's template literals, chunked at the
interpolation points (`\x7b`/`\x7d` denote literal braces). -/

/-- One entry of `config.modules`. -/
structure ModuleDescriptor where
  name : String
  entities : List String
  hasServices : Bool
  hasTests : Bool
  deriving DecidableEq, Repr

/-- The static `config.modules` of generate-docs.js (lines 10–45). -/
def configModules : List ModuleDescriptor :=
  [⟨"authorization", ["permission", "role"], true, true⟩,
   ⟨"financial", ["account", "transaction"], false, false⟩,
   ⟨"identity", ["identity", "identity-phone", "identity-street", "identity-property"],
    false, false⟩,
   ⟨"sales",
    ["attribute", "attribute-category", "attribute-value", "cart", "cart-item",
     "customer", "order", "product", "service", "shop", "shop-item",
     "shop-item-category"], false, false⟩,
   ⟨"school", ["school-class", "student"], false, false⟩]

/-- JavaScript `name.charAt(0).toUpperCase() + name.slice(1)`. -/
def capitalizeJs (s : String) : String :=
  match s.data with
  | [] => ""
  | c :: cs => String.mk (c.toUpper :: cs)

/-- `getModuleIcon` (generate-docs.js lines 830–839). -/
def getModuleIcon (moduleName : String) : String :=
  if moduleName == "authorization" then "lock"
  else if moduleName == "financial" then "credit-card"
  else if moduleName == "identity" then "user"
  else if moduleName == "sales" then "shopping-cart"
  else if moduleName == "school" then "graduation-cap"
  else "puzzle-piece"

/-- JavaScript `arr[0]` interpolated into a template: `undefined` prints as
the string `"undefined"` when the array is empty. -/
def jsFirst (l : List String) : String := l.headD "undefined"

/-- The part of one module card of `modules/overview.mdx` before the entity
count (generateModuleDocs, lines 361–365). -/
def moduleOverviewCardPre (m : ModuleDescriptor) : String :=
  "  <Card\n    title=\"" ++ capitalizeJs m.name ++ " Module\"\n    href=\"/modules/" ++
    m.name ++ "\"\n    icon=\"" ++ getModuleIcon m.name ++ "\"\n  >\n    "

/-- The part of one module card of `modules/overview.mdx` after
`"N entities • "` (line 366–367). -/
def moduleOverviewCardRest (m : ModuleDescriptor) : String :=
  (if m.hasServices then "Has services" else "No services") ++ " • " ++
    (if m.hasTests then "Has tests" else "No tests") ++ "\n  </Card>"

/-- One module card of `modules/overview.mdx`. -/
def moduleOverviewCard (m : ModuleDescriptor) : String :=
  moduleOverviewCardPre m ++ (toString m.entities.length ++ " entities • ") ++
    moduleOverviewCardRest m

/-- `modules/overview.mdx` up to the module count (lines 351–358). -/
def modulesOverviewPre : String :=
  "---\ntitle: \"Business Modules Overview\"\ndescription: \"Overview of the business modules that make up the AGVES application\"\n---\n\n## Module Architecture\n\nThe AGVES application is "

/-- `modules/overview.mdx` between the module count and the cards. -/
def modulesOverviewMid : String :=
  ", each handling specific domain logic:\n\n<CardGroup cols=\x7b2\x7d>\n"

/-- The static tail of `modules/overview.mdx` after the cards (lines 368–423). -/
def modulesOverviewTail : String :=
  "\n</CardGroup>\n\n## Common Module Patterns\n\nAll modules follow a consistent structure that promotes:\n\n### Standardized Organization\n```\nmodules/[module]/\n├── [module].tsx           # Module configuration\n├── index.tsx              # Module exports\n├── entities/              # Entity definitions\n├── i18n/                  # Internationalization\n├── services/              # Business logic (optional)\n└── __tests__/             # Module tests (optional)\n```\n\n### Automatic API Integration\nEach module automatically exposes RESTful endpoints:\n- **GET** `/api/\x7bmodule\x7d/\x7bentity\x7d` - List entities\n- **POST** `/api/\x7bmodule\x7d/\x7bentity\x7d` - Create entity\n- **GET** `/api/\x7bmodule\x7d/\x7bentity\x7d/\x7bid\x7d` - Show specific entity\n- **PUT** `/api/\x7bmodule\x7d/\x7bentity\x7d/\x7bid\x7d` - Update entity\n- **DELETE** `/api/\x7bmodule\x7d/\x7bentity\x7d/\x7bid\x7d` - Delete entity\n\n### Entity Relationships\nModules can define relationships between entities:\n- Within the same module\n- Cross-module relationships\n- Many-to-many associations\n- Polymorphic relationships\n\n## Module Details\n\nClick on any module above to see:\n- Complete entity documentation\n- API reference with examples\n- Usage patterns and best practices\n- Type definitions and relationships\n\n## Development Workflow\n\n### Adding New Modules\n1. Create module structure in `/src/modules/[name]/`\n2. Define entities with fields and relationships\n3. Add internationalization files\n4. Register module in the application\n5. Generate documentation with `npm run generate:docs`\n\n### Cross-Module Integration\nModules can interact through:\n- **Shared services** via dependency injection\n- **Event system** for reactive updates\n- **Entity relationships** for data modeling\n- **Authorization** for access control\n"

/-- The full `modules/overview.mdx` content generated by `generateModuleDocs`
(lines 349–425): the module count and per-module entity counts are interpolated
from the configuration at generation time. -/
def modulesOverview (ms : List ModuleDescriptor) : String :=
  modulesOverviewPre ++
    ("organized into **" ++ toString ms.length ++ " core business modules**") ++
    (modulesOverviewMid ++ jsJoin "\n" (ms.map moduleOverviewCard) ++ modulesOverviewTail)

/-- The part of one module card of `api-reference/introduction.mdx` before the
entity count (generateApiReference, lines 666–669). -/
def apiIntroCardPre (m : ModuleDescriptor) : String :=
  "  <Card\n    title=\"" ++ capitalizeJs m.name ++ "\"\n    href=\"/api-reference/" ++
    m.name ++ "/" ++ jsFirst m.entities ++ "\"\n  >\n    "

/-- One module card of `api-reference/introduction.mdx` (lines 666–671). -/
def apiIntroCard (m : ModuleDescriptor) : String :=
  apiIntroCardPre m ++ (toString m.entities.length ++ " entities available") ++
    "\n  </Card>"

/-- `api-reference/introduction.mdx` up to the module count (lines 618–624). -/
def apiIntroductionPre : String :=
  "---\ntitle: \"API Introduction\"\ndescription: \"Introduction to the AGVES API and authentication\"\n---\n\n## Overview\n\nThe AGVES API provides RESTful endpoints for all business entities "

/-- `api-reference/introduction.mdx` between the module count and the cards
(lines 625–665). -/
def apiIntroductionMid : String :=
  ". All endpoints follow consistent patterns for CRUD operations, pagination, and relationship loading.\n\n## Base URL\n\n```\nhttp://localhost:80/api\n```\n\n## Authentication\n\nAll API endpoints require authentication via Bearer token:\n\n```bash\nAuthorization: Bearer \x7byour-token\x7d\n```\n\n## Common Patterns\n\n### List Endpoints\nAll list endpoints support:\n- **Pagination**: `?page=1&per_page=15`\n- **Search**: `?search=term`\n- **Relationships**: `?include=relationship1,relationship2`\n\n### Response Format\nAll responses follow a consistent format:\n\n```json\n\x7b\n  \"data\": [...],\n  \"meta\": \x7b\n    \"current_page\": 1,\n    \"per_page\": 15,\n    \"total\": 100\n  \x7d\n\x7d\n```\n\n## Available Modules\n\n<CardGroup cols=\x7b2\x7d>\n"

/-- The full `api-reference/introduction.mdx` content generated by
`generateApiReference` (lines 616–675). -/
def apiIntroduction (ms : List ModuleDescriptor) : String :=
  apiIntroductionPre ++ ("across " ++ toString ms.length ++ " modules") ++
    (apiIntroductionMid ++ jsJoin "\n" (ms.map apiIntroCard) ++ "\n</CardGroup>\n")

/-- JavaScript `s.toLowerCase()` (ASCII range, the only characters present in
generated display names). -/
def jsToLower (s : String) : String := String.mk (s.data.map Char.toLower)

/-- `entity.split('-').map(word => word.charAt(0).toUpperCase() +
word.slice(1)).join(' ')` (generate-docs.js lines 440–442 and 689–691). -/
def displayNameJs (entity : String) : String :=
  jsJoin " " ((jsSplit entity "-").map capitalizeJs)

/-- JavaScript `displayName.replace(/\s/g, '')`. -/
def removeWs (s : String) : String := String.mk (s.data.filter (fun c => !isWsChar c))

/-- `architecture/overview.mdx` (generateArchitectureDocs, lines 107–180):
fully static text. -/
def architectureOverviewDoc : String :=
  "---\ntitle: \"Architecture Overview\"\ndescription: \"High-level overview of the AGVES application architecture and design principles\"\n---\n\n## Architecture Philosophy\n\nAGVES follows an **entity-driven architecture** that prioritizes:\n\n- **Business Logic Clarity**: Each entity encapsulates its domain logic\n- **Type Safety**: End-to-end TypeScript with Laravel-generated types\n- **Loose Coupling**: Dependency injection for service management\n- **Event-Driven Communication**: Reactive updates across the system\n\n## System Components\n\n<CardGroup cols=\x7b2\x7d>\n  <Card title=\"Frontend (Next.js 15)\" icon=\"react\">\n    - App Router with dynamic routing\n    - Entity-aware components\n    - Real-time form validation\n    - Multi-language support\n  </Card>\n  <Card title=\"Backend (Laravel)\" icon=\"server\">\n    - RESTful API endpoints\n    - Type generation for frontend\n    - Role-based authorization\n    - Event broadcasting\n  </Card>\n</CardGroup>\n\n## Key Design Patterns\n\n### Entity-Driven Development\nEvery business concept is modeled as an entity with:\n- Standardized CRUD operations\n- Automatic form generation\n- Relationship management\n- Internationalization support\n\n### Dependency Injection\nServices are managed through InversifyJS container for:\n- Testability and mocking\n- Environment-specific implementations\n- Loose coupling between components\n\n### Event-Driven Architecture\nEvents flow through the system to:\n- Maintain data consistency\n- Enable reactive UI updates\n- Decouple business logic\n\n## Module Structure\n\nEach business module follows a consistent pattern:\n\n```\nmodules/[module]/\n├── [module].tsx           # Module configuration\n├── index.tsx              # Exports\n├── entities/              # Entity definitions\n├── i18n/                  # Translations\n├── services/              # Business logic (optional)\n└── __tests__/             # Tests (optional)\n```\n\n## Next Steps\n\nExplore specific architectural components:\n- [Entity System](/architecture/entity-system)\n- [Dependency Injection](/architecture/dependency-injection)\n- [Event System](/architecture/event-system)\n- [Internationalization](/architecture/internationalization)\n"

/-- One module card of `architecture/entity-system.mdx` (lines 236–241). -/
def entitySystemCard (m : ModuleDescriptor) : String :=
  "  <Card\n    title=\"" ++ capitalizeJs m.name ++ "\"\n    href=\"/modules/" ++ m.name ++
    "\"\n  >\n    " ++ toString m.entities.length ++ " entities: " ++
    jsJoin ", " (m.entities.take 3) ++
    (if m.entities.length > 3 then "..." else "") ++ "\n  </Card>"

/-- `architecture/entity-system.mdx` before the module cards (lines 186–235). -/
def entitySystemPre : String :=
  "---\ntitle: \"Entity System\"\ndescription: \"Understanding the entity-driven architecture and how entities are managed across the application\"\n---\n\n## Overview\n\nThe AGVES application is built around an **entity-driven architecture** where business logic is organized around entities with standardized patterns for CRUD operations, relationships, and event handling.\n\n## Entity Structure\n\nEvery entity in the system follows a consistent pattern:\n\n```\nmodules/[module]/\n├── entities/\n│   └── [entity-name].tsx     # Entity definition with fields, relationships\n├── i18n/\n│   └── entities/\n│       └── [entity-name].ts  # Translations for the entity\n└── services/                 # Optional business logic services\n```\n\n## Entity Definition Pattern\n\n```typescript\n// modules/authorization/entities/permission.tsx\nimport \x7b Entity \x7d from '@/lib/entity/entity';\n\nexport const PermissionEntity = Entity.create('permission', \x7b\n  module: 'authorization',\n  fields: \x7b\n    id: \x7b type: 'number', primary: true \x7d,\n    name: \x7b type: 'string', required: true \x7d,\n    description: \x7b type: 'string', nullable: true \x7d,\n    module: \x7b type: 'string', nullable: true \x7d\n  \x7d,\n  relationships: \x7b\n    roles: \x7b\n      type: 'belongsToMany',\n      entity: 'role',\n      module: 'authorization'\n    \x7d\n  \x7d\n\x7d);\n```\n\n## Available Modules\n\n<CardGroup cols=\x7b2\x7d>\n"

/-- `architecture/entity-system.mdx` after the module cards (lines 242–294). -/
def entitySystemPost : String :=
  "\n</CardGroup>\n\n## Entity Features\n\n### Automatic API Integration\nAll entities automatically get CRUD operations through the API service layer:\n\n```typescript\nconst \x7b data: permissions \x7d = useEntityQuery('permission', 'authorization');\n```\n\n### Relationship Management\nEntities can define relationships that are automatically resolved:\n\n```typescript\nrelationships: \x7b\n  roles: \x7b\n    type: 'belongsToMany',\n    entity: 'role',\n    module: 'authorization'\n  \x7d\n\x7d\n```\n\n### Form Generation\nForms are automatically generated based on entity field definitions:\n\n```typescript\n<EntityFormComponent \n  entityName=\"permission\" \n  moduleName=\"authorization\" \n/>\n```\n\n### Internationalization\nAll entity fields and labels are automatically translated:\n\n```typescript\n// i18n/entities/permission.ts\nexport default \x7b\n  fields: \x7b\n    name: 'Nom',\n    description: 'Description'\n  \x7d\n\x7d;\n```\n\n## Next Steps\n\n- Learn about [Dependency Injection](/architecture/dependency-injection)\n- Explore [Event System](/architecture/event-system)\n- See [Module Examples](/modules/overview)\n"

/-- `architecture/entity-system.mdx` (lines 186–294). -/
def entitySystemDoc (ms : List ModuleDescriptor) : String :=
  entitySystemPre ++ jsJoin "\n" (ms.map entitySystemCard) ++ entitySystemPost

/-- `architecture/dependency-injection.mdx` (lines 297–342): static text. -/
def diDoc : String :=
  "---\ntitle: \"Dependency Injection\"\ndescription: \"InversifyJS container setup for service management and loose coupling\"\n---\n\n## Overview\n\nThe application uses **InversifyJS** for dependency injection, providing a clean way to manage services and maintain loose coupling between components.\n\n## Container Setup\n\nThe DI container is configured in `/lib/implementations/next/container/`:\n\n```typescript\n// lib/implementations/next/container/container-singleton.ts\nimport \x7b Container \x7d from 'inversify';\n\nconst container = new Container();\n\n// Service registrations\ncontainer.bind('ApiService').to(ApiService);\ncontainer.bind('EventService').to(EventService);\ncontainer.bind('AuthorizationService').to(AuthorizationService);\n\nexport \x7b container \x7d;\n```\n\n## Using Services\n\nServices are accessed through custom hooks:\n\n```typescript\nimport \x7b useContainer \x7d from '@/lib/implementations/next/hooks/container/container';\n\nexport const useAuthorizationService = () => \x7b\n  const container = useContainer();\n  return container.get<AuthorizationService>('AuthorizationService');\n\x7d;\n```\n\n## Benefits\n\n- **Testability**: Easy mocking for tests\n- **Flexibility**: Environment-specific implementations\n- **Loose Coupling**: Interface-based dependencies\n"

/-- `components/overview.mdx` (generateComponentDocs, lines 531–608): static. -/
def componentsOverviewDoc : String :=
  "---\ntitle: \"Components Overview\"\ndescription: \"Reusable UI components and their usage patterns\"\n---\n\n## Component Architecture\n\nThe application uses a layered component architecture:\n\n```\ncomponents/                           # Shared components\nlib/implementations/next/components/  # Next.js specific components\napp/[locale]/components/             # App-specific components\n```\n\n## Core Component Categories\n\n### Entity Components\nSpecialized components for entity operations:\n\n```typescript\n// Auto-generated forms\n<EntityFormComponent \n  entityName=\"permission\" \n  moduleName=\"authorization\" \n/>\n\n// Data tables with pagination\n<EntityDataTable \n  entityName=\"role\" \n  moduleName=\"authorization\" \n/>\n\n// Field displays with proper formatting\n<EntityFieldsDisplay \n  entity=\x7broleData\x7d\n  entityName=\"role\"\n  moduleName=\"authorization\"\n/>\n```\n\n### Form Components\nLocated in `/lib/implementations/next/components/fields/` and `/inputs/`\n\n<CardGroup cols=\x7b2\x7d>\n  <Card title=\"Field Components\">\n    Display-only components for showing data with proper formatting\n  </Card>\n  <Card title=\"Input Components\">\n    Interactive form input components with validation\n  </Card>\n</CardGroup>\n\n### Select Components\nAdvanced select components with API integration:\n\n```typescript\n<Select\n  entityName=\"role\"\n  moduleName=\"authorization\"\n  multiple=\x7bfalse\x7d\n  searchable=\x7btrue\x7d\n  placeholder=\"Select a role...\"\n/>\n```\n\n## Best Practices\n\n### Component Naming\n- **Fields**: `[Type]Field.tsx` (e.g., `TextField.tsx`)\n- **Inputs**: `[Type]Input.tsx` (e.g., `TextInput.tsx`) \n- **Entity Components**: `Entity[Purpose]Component.tsx`\n\n### Styling\n- Use **TailwindCSS** for utility-first styling\n- **Material-UI** components for complex interactions\n- Custom styles in `style.ts` files when needed\n"

/-- One entity card of a per-module page (generateModuleDocs, lines 439–449). -/
def moduleDocCard (moduleName entity : String) : String :=
  "  <Card\n    title=\"" ++ displayNameJs entity ++ "\"\n    href=\"/api-reference/" ++
    moduleName ++ "/" ++ entity ++ "\"\n  >\n    Manage " ++
    jsToLower (displayNameJs entity) ++ " operations\n  </Card>"

/-- `modules/<name>.mdx` (generateModuleDocs, lines 429–521). -/
def moduleDoc (m : ModuleDescriptor) : String :=
  let cap := capitalizeJs m.name
  "---\ntitle: \"" ++ cap ++ " Module\"\ndescription: \"Business logic and entities for " ++
    m.name ++ " management\"\n---\n\n## Overview\n\nThe " ++ m.name ++
    " module handles all " ++ m.name ++
    "-related business logic and provides the following entities:\n\n<CardGroup cols=\x7b2\x7d>\n" ++
    jsJoin "\n" (m.entities.map (moduleDocCard m.name)) ++
    "\n</CardGroup>\n\n## Module Structure\n\n```\nmodules/" ++ m.name ++ "/\n├── " ++
    m.name ++
    ".tsx              # Module configuration\n├── index.tsx                   # Module exports\n├── entities/                   # Entity definitions\n" ++
    jsJoin "\n" (m.entities.map (fun e => "│   ├── " ++ e ++ ".tsx")) ++
    "\n├── i18n/                      # Internationalization\n│   ├── translations.ts        # Module translations\n│   └── entities/              # Entity translations\n" ++
    jsJoin "\n" (m.entities.map (fun e => "│       ├── " ++ e ++ ".ts")) ++
    (if m.hasServices then
      "\n└── services/                  # Business logic services\n    └── " ++ m.name ++
        "-service.ts"
     else "") ++
    (if m.hasTests then "\n└── __tests__/                 # Module tests\n    └── service/"
     else "") ++
    "\n```\n\n## Usage Examples\n\n### Querying Entities\n```typescript\nimport \x7b useEntityQuery \x7d from '@/lib/implementations/next/api/hooks/entity/query';\n\nfunction " ++
    cap ++ "List() \x7b\n  const \x7b data: entities \x7d = useEntityQuery('" ++
    jsFirst m.entities ++ "', '" ++ m.name ++
    "');\n  \n  return (\n    <div>\n      \x7bentities?.map(entity => (\n        <div key=\x7bentity.id\x7d>\x7bentity.name\x7d</div>\n      ))\x7d\n    </div>\n  );\n\x7d\n```\n\n### Creating Entities\n```typescript\nimport \x7b EntityFormComponent \x7d from '@/lib/implementations/next/components/entity';\n\nfunction Create" ++
    cap ++
    "() \x7b\n  return (\n    <EntityFormComponent \n      entityName=\"" ++
    jsFirst m.entities ++ "\" \n      moduleName=\"" ++ m.name ++
    "\"\n      mode=\"create\"\n    />\n  );\n\x7d\n```\n\n## API Endpoints\n\nAll entities in this module are available through RESTful endpoints:\n\n```bash\nGET    /api/" ++
    m.name ++ "/\x7bentity\x7d           # List entities\nPOST   /api/" ++ m.name ++
    "/\x7bentity\x7d           # Create entity\nGET    /api/" ++ m.name ++
    "/\x7bentity\x7d/\x7bid\x7d      # Show entity\nPUT    /api/" ++ m.name ++
    "/\x7bentity\x7d/\x7bid\x7d      # Update entity\nDELETE /api/" ++ m.name ++
    "/\x7bentity\x7d/\x7bid\x7d      # Delete entity\n```\n\n## Related Documentation\n\n- [Entity System Architecture](/architecture/entity-system)\n- [API Reference](/api-reference/" ++
    m.name ++ "/" ++ jsFirst m.entities ++ ")\n- [Frontend Components](/components/overview)\n"

/-- `generateEntityApiDoc(moduleName, entityName)` (lines 687–788): one
`api-reference/<module>/<entity>.mdx` page. -/
def generateEntityApiDoc (moduleName entityName : String) : String :=
  let capitalizedModule := capitalizeJs moduleName
  let displayName := displayNameJs entityName
  "---\ntitle: \"" ++ displayName ++ "\"\napi: \"GET /api/" ++ moduleName ++ "/" ++
    entityName ++ "\"\ndescription: \"Manage " ++ jsToLower displayName ++ " in the " ++
    capitalizedModule ++ " module\"\n---\n\n## Overview\n\nThe " ++ displayName ++
    " API provides full CRUD operations for managing " ++ jsToLower displayName ++
    " entities within the " ++ capitalizedModule ++ " module.\n\n## List " ++ displayName ++
    "\n\n<ParamField query=\"page\" type=\"integer\" default=\"1\">\n  Page number for pagination\n</ParamField>\n\n<ParamField query=\"per_page\" type=\"integer\" default=\"15\">\n  Number of items per page (max 100)\n</ParamField>\n\n<ParamField query=\"search\" type=\"string\">\n  Search term to filter results\n</ParamField>\n\n<RequestExample>\n\n```bash cURL\ncurl -X GET \"http://localhost:80/api/" ++
    moduleName ++ "/" ++ entityName ++
    "\" \\\n  -H \"Authorization: Bearer \x7btoken\x7d\" \\\n  -H \"Accept: application/json\"\n```\n\n```typescript React Hook\nimport \x7b useEntityQuery \x7d from '@/lib/implementations/next/api/hooks/entity/query';\n\nfunction " ++
    removeWs displayName ++ "List() \x7b\n  const \x7b data, isLoading, error \x7d = useEntityQuery('" ++
    entityName ++ "', '" ++ moduleName ++
    "');\n  \n  if (isLoading) return <div>Loading...</div>;\n  if (error) return <div>Error: \x7berror.message\x7d</div>;\n  \n  return (\n    <div>\n      \x7bdata?.map(item => (\n        <div key=\x7bitem.id\x7d>\x7bitem.name\x7d</div>\n      ))\x7d\n    </div>\n  );\n\x7d\n```\n\n</RequestExample>\n\n## Create " ++
    displayName ++
    "\n\n<ParamField body=\"name\" type=\"string\" required>\n  The name of the " ++
    jsToLower displayName ++
    "\n</ParamField>\n\n<RequestExample>\n\n```typescript React Component\nimport \x7b EntityFormComponent \x7d from '@/lib/implementations/next/components/entity';\n\nfunction Create" ++
    removeWs displayName ++
    "() \x7b\n  return (\n    <EntityFormComponent \n      entityName=\"" ++ entityName ++
    "\" \n      moduleName=\"" ++ moduleName ++
    "\"\n      mode=\"create\"\n      onSuccess=\x7b(data) => console.log('Created:', data)\x7d\n    />\n  );\n\x7d\n```\n\n</RequestExample>\n\n## Frontend Components\n\n```typescript\n// Data table with pagination\n<EntityDataTable \n  entityName=\"" ++
    entityName ++ "\" \n  moduleName=\"" ++ moduleName ++
    "\" \n/>\n\n// Form component\n<EntityFormComponent \n  entityName=\"" ++ entityName ++
    "\" \n  moduleName=\"" ++ moduleName ++
    "\"\n  mode=\"create\"\n/>\n```\n"

/-- All page writes of one generator run, in program order
(`generateArchitectureDocs`, `generateModuleDocs`, `generateComponentDocs`,
`generateApiReference`); `path.join('.', p)` normalizes to `p`. -/
def generatedPages (ms : List ModuleDescriptor) : List (String × String) :=
  [("architecture/overview.mdx", architectureOverviewDoc),
   ("architecture/entity-system.mdx", entitySystemDoc ms),
   ("architecture/dependency-injection.mdx", diDoc),
   ("modules/overview.mdx", modulesOverview ms)] ++
  ms.map (fun m => ("modules/" ++ m.name ++ ".mdx", moduleDoc m)) ++
  [("components/overview.mdx", componentsOverviewDoc),
   ("api-reference/introduction.mdx", apiIntroduction ms)] ++
  (ms.map (fun m =>
    m.entities.map (fun e =>
      ("api-reference/" ++ m.name ++ "/" ++ e ++ ".mdx", generateEntityApiDoc m.name e)))).flatten

/-! ## JSON values, `JSON.stringify` and `JSON.parse`

`docs.json` (the navigation manifest) is read with `JSON.parse`, modified, and
rewritten with `JSON.stringify` by `updateDocsConfig`.  JSON values are
modelled without numeric literals (the manifest is built of strings, arrays
and objects; a numeric literal makes the modelled parse fail, which lands in
the same skip branch as any other unparseable file).  The serializer is
`JSON.stringify` up to inert layout: it emits no pretty-printing whitespace
and leaves control characters unescaped, differences that are invisible to
the parse/stringify round trip the theorems rely on.  The parser keeps
duplicate object keys in order (`JSON.parse` keeps the last value); the
difference is observable only on files that contain duplicate keys. -/

mutual

/-- A JSON value (no numeric literals, see section comment). -/
inductive Json where
  | null
  | bool (b : Bool)
  | str (s : List Char)
  | arr (elems : JsonArr)
  | obj (fields : JsonObj)

/-- A JSON array. -/
inductive JsonArr where
  | nil
  | cons (v : Json) (rest : JsonArr)

/-- A JSON object: ordered key/value fields. -/
inductive JsonObj where
  | nil
  | cons (k : List Char) (v : Json) (rest : JsonObj)

end

/-- The `\x7b` character. -/
def lbrace : Char := Char.ofNat 123

/-- The `\x7d` character. -/
def rbrace : Char := Char.ofNat 125

/-- `JSON.stringify` escaping of one string character (quote and backslash;
control characters are left raw, an inert-layout difference). -/
def escChar (c : Char) : List Char := if c = '"' ∨ c = '\\' then ['\\', c] else [c]

/-- Escape a whole string body. -/
def escStr : List Char → List Char
  | [] => []
  | c :: cs => escChar c ++ escStr cs

mutual

/-- Serialize a JSON value (compact `JSON.stringify`). -/
def serJson : Json → List Char
  | .null => 'n' :: 'u' :: 'l' :: 'l' :: []
  | .bool true => 't' :: 'r' :: 'u' :: 'e' :: []
  | .bool false => 'f' :: 'a' :: 'l' :: 's' :: 'e' :: []
  | .str s => '"' :: (escStr s ++ ['"'])
  | .arr l => '[' :: (serArrItems l ++ [']'])
  | .obj o => lbrace :: (serObjItems o ++ [rbrace])

/-- Serialize array elements, comma-separated. -/
def serArrItems : JsonArr → List Char
  | .nil => []
  | .cons v .nil => serJson v
  | .cons v rest => serJson v ++ ',' :: serArrItems rest

/-- Serialize object fields, comma-separated. -/
def serObjItems : JsonObj → List Char
  | .nil => []
  | .cons k v .nil => '"' :: (escStr k ++ '"' :: ':' :: serJson v)
  | .cons k v rest =>
    ('"' :: (escStr k ++ '"' :: ':' :: serJson v)) ++ ',' :: serObjItems rest

end

mutual

/-- Fuel bound for parsing back a serialized value. -/
def jsize : Json → Nat
  | .null => 1
  | .bool _ => 1
  | .str _ => 1
  | .arr l => asize l + 1
  | .obj o => osize o + 1

/-- Fuel bound for array elements. -/
def asize : JsonArr → Nat
  | .nil => 0
  | .cons v l => jsize v + asize l + 1

/-- Fuel bound for object fields. -/
def osize : JsonObj → Nat
  | .nil => 0
  | .cons _ v o => jsize v + osize o + 1

end

/-- JSON insignificant whitespace. -/
def isJsonWs (c : Char) : Bool := c = ' ' || c = '\n' || c = '\t' || c = '\r'

/-- Skip insignificant whitespace. -/
def dropWs (s : List Char) : List Char := s.dropWhile isJsonWs

/-- Parse the body of a string literal after the opening quote; unescapes the
standard single-character escapes. -/
def parseStrBody : List Char → Option (List Char × List Char)
  | [] => none
  | c :: r =>
    if c = '"' then some ([], r)
    else if c = '\\' then
      match r with
      | [] => none
      | e :: r' =>
        if e = '"' ∨ e = '\\' ∨ e = '/' then
          (parseStrBody r').map (fun p => (e :: p.1, p.2))
        else if e = 'n' then (parseStrBody r').map (fun p => ('\n' :: p.1, p.2))
        else if e = 't' then (parseStrBody r').map (fun p => ('\t' :: p.1, p.2))
        else if e = 'r' then (parseStrBody r').map (fun p => ('\r' :: p.1, p.2))
        else none
    else (parseStrBody r).map (fun p => (c :: p.1, p.2))

mutual

/-- Parse one JSON value (fuel-driven recursion; `length input + 1` fuel is
always sufficient). -/
def parseJsonVal : Nat → List Char → Option (Json × List Char)
  | 0, _ => none
  | fuel + 1, s =>
    match dropWs s with
    | [] => none
    | c :: r =>
      if c = 'n' then
        match r with
        | 'u' :: 'l' :: 'l' :: r2 => some (.null, r2)
        | _ => none
      else if c = 't' then
        match r with
        | 'r' :: 'u' :: 'e' :: r2 => some (.bool true, r2)
        | _ => none
      else if c = 'f' then
        match r with
        | 'a' :: 'l' :: 's' :: 'e' :: r2 => some (.bool false, r2)
        | _ => none
      else if c = '"' then (parseStrBody r).map (fun p => (.str p.1, p.2))
      else if c = '[' then
        match dropWs r with
        | [] => none
        | c2 :: r2 =>
          if c2 = ']' then some (.arr .nil, r2)
          else
            match parseArrItems fuel (c2 :: r2) with
            | some (items, r3) => some (.arr items, r3)
            | none => none
      else if c = lbrace then
        match dropWs r with
        | [] => none
        | c2 :: r2 =>
          if c2 = rbrace then some (.obj .nil, r2)
          else
            match parseObjItems fuel (c2 :: r2) with
            | some (fields, r3) => some (.obj fields, r3)
            | none => none
      else none

/-- Parse the elements of a non-empty array, up to and including `]`. -/
def parseArrItems : Nat → List Char → Option (JsonArr × List Char)
  | 0, _ => none
  | fuel + 1, s =>
    match parseJsonVal fuel s with
    | none => none
    | some (v, r) =>
      match dropWs r with
      | [] => none
      | c :: r2 =>
        if c = ',' then
          match parseArrItems fuel r2 with
          | some (rest, r3) => some (.cons v rest, r3)
          | none => none
        else if c = ']' then some (.cons v .nil, r2)
        else none

/-- Parse the fields of a non-empty object, up to and including `\x7d`. -/
def parseObjItems : Nat → List Char → Option (JsonObj × List Char)
  | 0, _ => none
  | fuel + 1, s =>
    match dropWs s with
    | [] => none
    | c :: r =>
      if c = '"' then
        match parseStrBody r with
        | none => none
        | some (k, r1) =>
          match dropWs r1 with
          | [] => none
          | c2 :: r2 =>
            if c2 = ':' then
              match parseJsonVal fuel r2 with
              | none => none
              | some (v, r3) =>
                match dropWs r3 with
                | [] => none
                | c3 :: r4 =>
                  if c3 = ',' then
                    match parseObjItems fuel r4 with
                    | some (rest, r5) => some (.cons k v rest, r5)
                    | none => none
                  else if c3 = rbrace then some (.cons k v .nil, r4)
                  else none
            else none
      else none

end

/-- `JSON.parse`: parse a complete document (trailing whitespace allowed). -/
def parseJsonTop (s : List Char) : Option Json :=
  match parseJsonVal (s.length + 1) s with
  | some (v, rest) => if (dropWs rest).isEmpty then some v else none
  | none => none

/-! ## `updateDocsConfig` (generate-docs.js lines 790–827) -/

/-- First value bound to key `k` (JavaScript property read). -/
def objLookup : JsonObj → List Char → Option Json
  | .nil, _ => none
  | .cons k' v rest, k => if k' = k then some v else objLookup rest k

/-- JavaScript property assignment `o[k] = v`: replace the first binding of
`k` in place, or append a new binding. -/
def objSet : JsonObj → List Char → Json → JsonObj
  | .nil, k, v => .cons k v .nil
  | .cons k' v' rest, k, v =>
    if k' = k then .cons k' v rest else .cons k' v' (objSet rest k v)

/-- `"navigation"`. -/
def navKey : List Char := ['n', 'a', 'v', 'i', 'g', 'a', 't', 'i', 'o', 'n']

/-- `"tabs"`. -/
def tabsKey : List Char := ['t', 'a', 'b', 's']

/-- `"tab"`. -/
def tabKey : List Char := ['t', 'a', 'b']

/-- `"groups"`. -/
def groupsKey : List Char := ['g', 'r', 'o', 'u', 'p', 's']

/-- `"API Reference"`. -/
def apiRefTabName : List Char :=
  ['A', 'P', 'I', ' ', 'R', 'e', 'f', 'e', 'r', 'e', 'n', 'c', 'e']

/-- Convert a list of values to a JSON array. -/
def jarrOfList : List Json → JsonArr
  | [] => .nil
  | v :: r => .cons v (jarrOfList r)

/-- A JSON string from a Lean string. -/
def jstrOf (s : String) : Json := .str s.data

/-- One navigation group object `\x7b "group": g, "pages": pages \x7d`. -/
def navGroup (g : String) (pages : List String) : Json :=
  .obj (.cons ['g', 'r', 'o', 'u', 'p'] (jstrOf g)
    (.cons ['p', 'a', 'g', 'e', 's'] (.arr (jarrOfList (pages.map jstrOf))) .nil))

/-- The replacement `apiTab.groups` value (lines 807–819): the static "API
Documentation" group followed by one group per configured module. -/
def apiGroupsJson (ms : List ModuleDescriptor) : Json :=
  .arr (jarrOfList
    (navGroup "API Documentation"
      ["api-reference/introduction", "api-reference/authentication"] ::
     ms.map (fun m =>
       navGroup (capitalizeJs m.name)
         (m.entities.map (fun e => "api-reference/" ++ m.name ++ "/" ++ e)))))

/-- `docsConfig.navigation.tabs.find(tab => tab.tab === 'API Reference')`
followed by the in-place `apiTab.groups = ...` assignment: walk the tabs
array; a `null` element makes the property read throw (`.error`); the first
object element whose `"tab"` field is the string `"API Reference"` gets its
`"groups"` field replaced; `none` when no element matches. -/
def updateTabsArr (g : Json) : JsonArr → Except Unit (Option JsonArr)
  | .nil => .ok none
  | .cons t rest =>
    match t with
    | .null => .error ()
    | .obj kvs =>
      match objLookup kvs tabKey with
      | some (.str s) =>
        if s = apiRefTabName then
          .ok (some (.cons (.obj (objSet kvs groupsKey g)) rest))
        else
          match updateTabsArr g rest with
          | .ok (some rest') => .ok (some (.cons t rest'))
          | .ok none => .ok none
          | .error e => .error e
      | _ =>
        match updateTabsArr g rest with
        | .ok (some rest') => .ok (some (.cons t rest'))
        | .ok none => .ok none
        | .error e => .error e
    | _ =>
      match updateTabsArr g rest with
      | .ok (some rest') => .ok (some (.cons t rest'))
      | .ok none => .ok none
      | .error e => .error e

/-- `docsConfig.navigation.tabs` with JavaScript property-access semantics:
any shape other than object→object→array makes some property access or the
`.find` call throw a `TypeError` (uncaught: it aborts `generateAllDocs`). -/
def navTabsOf : Json → Except Unit (JsonObj × JsonObj × JsonArr)
  | .obj kvs =>
    match objLookup kvs navKey with
    | some (.obj nkvs) =>
      match objLookup nkvs tabsKey with
      | some (.arr tabs) => .ok (kvs, nkvs, tabs)
      | _ => .error ()
    | _ => .error ()
  | _ => .error ()

/-- `updateDocsConfig()` (lines 790–827): read `docs.json`; a read or parse
failure only logs a warning and skips; an unexpected shape throws out of the
function; otherwise replace the API Reference tab's groups and rewrite the
file (or log a warning when the tab is absent). -/
def updateDocsConfig (ms : List ModuleDescriptor) (fs : FS) :
    Except Unit (FS × List String) :=
  match fs "docs.json" with
  | none => .ok (fs, ["⚠️ Could not read docs.json, skipping navigation update"])
  | some content =>
    match parseJsonTop content.data with
    | none => .ok (fs, ["⚠️ Could not read docs.json, skipping navigation update"])
    | some d =>
      match navTabsOf d with
      | .error e => .error e
      | .ok (kvs, nkvs, tabs) =>
        match updateTabsArr (apiGroupsJson ms) tabs with
        | .error e => .error e
        | .ok none => .ok (fs, ["⚠️ API Reference tab not found in docs.json"])
        | .ok (some tabs') =>
          let d' := Json.obj (objSet kvs navKey (.obj (objSet nkvs tabsKey (.arr tabs'))))
          .ok (fsWrite fs "docs.json" (String.mk (serJson d')),
            ["✅ Updated docs.json navigation with generated API pages"])

/-- `generateAllDocs()` (lines 49–78): write every generated page in program
order, then update the navigation manifest; any uncaught error is caught at
the top, logged, and turns into `process.exit(1)` (second component `false`),
leaving the pages already written on disk. -/
def generateAllDocs (ms : List ModuleDescriptor) (fs : FS) : FS × Bool :=
  let fs1 := fsWriteAll fs (generatedPages ms)
  match updateDocsConfig ms fs1 with
  | .ok (fs2, _) => (fs2, true)
  | .error _ => (fs1, false)

/-! ## Concrete fixtures used by witnesses and counterexamples -/

/-- An empty documentation tree. -/
def fsEmpty : FS := fun _ => none

/-- A tree holding only an architecture overview page. -/
def fsWithOverview : FS := fun p => if p = overviewPath then some "old overview" else none

/-- A tree holding only the sales module page. -/
def fsWithSales : FS := fun p => if p = moduleDocPath "sales" then some "old content" else none

/-- A pending batch of three distinct (unclassifiable) paths. -/
def stBatch3 : WatcherState := ⟨["z1", "z2", "z3"], false⟩

/-- A pending batch of two distinct paths. -/
def stBatch2 : WatcherState := ⟨["z1", "z2"], false⟩

/-- A pending batch of three distinct paths, pairwise different from
`stBatch3` but with the same size and analysis. -/
def stBatch3b : WatcherState := ⟨["q1", "q2", "q3"], false⟩

/-- Oracle: every external command succeeds, nothing to commit, an Anthropic
key is configured. -/
def oAllOk : Oracles :=
  ⟨.ok (), .ok (), .ok "", .ok (), .ok (), .ok (), .ok (),
    "2025-06-01T00:00:00.000Z", false, true, false⟩

/-- Oracle: deterministic regeneration (`node scripts/generate-docs.js`)
fails with `boom`; everything else succeeds. -/
def oRegenFail : Oracles :=
  ⟨.ok (), .error "boom", .ok "", .ok (), .ok (), .ok (), .ok (),
    "2025-06-01T00:00:00.000Z", false, true, false⟩

/-- First-character disagreement of two strings (used to discriminate log
lines and commands that continue with arbitrary interpolated text). -/
def headCharNe (a c : String) : Bool :=
  match a.data, c.data with
  | x :: _, y :: _ => x ≠ y
  | _, _ => false

/-- Shape of the actions `commitChanges` can emit (commands and log lines,
with the interpolated suffixes of commit messages and error logs left free). -/
def commitShape (x : Act) : Bool :=
  match x with
  | .exec c =>
    c == "git status --porcelain" || c == "git add ." || c == "git push" ||
      (stripPfx "git commit -m \"".data c.data).isSome
  | .log l =>
    l == "📤 Changes committed successfully" ||
      (stripPfx "❌ Commit failed: ".data l.data).isSome
  | _ => false

/-- Shape of the actions `quickUpdate` can emit. -/
def quickShape (x : Act) : Bool :=
  commitShape x || x == .log "⚡ Running quick documentation update..." ||
    x == .exec "npm run sync:types" || x == .exec "node scripts/generate-docs.js" ||
    (match x with
     | .log l => (stripPfx "❌ Quick update failed: ".data l.data).isSome
     | _ => false)

/-- Shape of the actions `aiEnhancedUpdate` can emit. -/
def aiShape (x : Act) : Bool :=
  commitShape x || x == .log "🤖 Running AI-enhanced documentation update..." ||
    x == .log "⚠️ No AI API keys found, skipping AI enhancement" ||
    x == .exec "node scripts/enhance-with-ai.js" ||
    (match x with
     | .setEnv _ _ => true
     | .log l => (stripPfx "❌ AI enhancement failed: ".data l.data).isSome
     | _ => false)

/-! ## Theorems -/

theorem stripPfx_self_append (a b : List Char) : stripPfx a (a ++ b) = some b := by
  induction a with
  | nil => simp [stripPfx]
  | cons c cs ih => simp [stripPfx, ih]

theorem ne_of_headCharNe {a c : String} (h : headCharNe a c = true) (e : String) :
    a ++ e ≠ c := by
  intro heq
  have hd : a.data ++ e.data = c.data := by rw [← String.data_append, heq]
  unfold headCharNe at h
  cases ha : a.data with
  | nil => rw [ha] at h; cases c.data <;> simp at h
  | cons x xs =>
    rw [ha] at h hd
    cases hc : c.data with
    | nil => rw [hc] at hd; simp at hd
    | cons y ys =>
      rw [hc] at h hd
      simp at h
      exact h (by simpa using congrArg List.head? hd)

theorem jsJoin_decomp (sep : String) {x : String} {l : List String} (h : x ∈ l) :
    ∃ p q, jsJoin sep l = p ++ x ++ q := by
  induction l with
  | nil => cases h
  | cons a t ih =>
    rcases List.mem_cons.mp h with rfl | hx
    · cases t with
      | nil => exact ⟨"", "", by simp [jsJoin]⟩
      | cons b t' =>
        exact ⟨"", sep ++ jsJoin sep (b :: t'), by simp [jsJoin, String.append_assoc]⟩
    · have hne : t ≠ [] := by rintro rfl; cases hx
      obtain ⟨p, q, hp⟩ := ih hx
      refine ⟨a ++ sep ++ p, q, ?_⟩
      cases t with
      | nil => cases hx
      | cons b t' => simp [jsJoin, hp, String.append_assoc]

/-- C10: the enhancer's types-changed flag `Boolean(process.env.TYPES_CHANGED)`
is true exactly for a set, non-empty value — in particular the string
`"false"` counts as "types changed" — and the watcher encodes false as the
empty string (not `"false"`), so decoding the watcher's encoding recovers the
original boolean. -/
theorem C10_types_changed_flag :
    (∀ s : String, typesChangedFlag (some s) = !(s == "")) ∧
    typesChangedFlag (some "false") = true ∧
    typesChangedFlag none = false ∧
    encodeTypesChanged false = "" ∧
    (∀ b : Bool, typesChangedFlag (some (encodeTypesChanged b)) = b) := by
  refine ⟨fun s => rfl, by decide, rfl, rfl, fun b => by cases b <;> decide⟩

/-- C5: `analyzeChanges` is a pure classifier: on
`["root/modules/sales/entities/order.x", "root/generated.d.ts"]` it yields
modules `{"sales"}`, `typesChanged = true`, `componentsChanged = false`; and a
path matching no classification rule is ignored without error (appending it to
any input leaves the result unchanged). -/
theorem C5_change_detector :
    analyzeChanges ["root/modules/sales/entities/order.x", "root/generated.d.ts"] =
      { modules := ["sales"], types := true, components := false, services := false } ∧
    (∀ (l : List String) (p : String), recognizedPath p = false →
      analyzeChanges (l ++ [p]) = analyzeChanges l) := by
  constructor
  · decide
  · intro l p hp
    have hstep : ∀ a, analyzeStep a p = a := by
      intro a
      unfold recognizedPath at hp
      simp only [Bool.or_eq_false_iff] at hp
      obtain ⟨⟨⟨h1, h2⟩, h3⟩, h4⟩ := hp
      simp [analyzeStep, h1, h2, h3, h4]
    simp [analyzeChanges, List.foldl_append, hstep]

/-- C5 witness: a concrete unrecognized path appended to a concrete batch
leaves the analysis unchanged. -/
theorem C5_change_detector_witness :
    recognizedPath "README.md" = false ∧
    analyzeChanges (["root/modules/sales/entities/order.x"] ++ ["README.md"]) =
      analyzeChanges ["root/modules/sales/entities/order.x"] :=
  ⟨by decide, C5_change_detector.2 ["root/modules/sales/entities/order.x"] "README.md" (by decide)⟩

/-- C7: enhancing a module whose documentation page does not exist skips the
module entirely: the file system is returned unchanged (zero writes, no page
created) and no API call is consumed; the function is total, so no error
reaches the caller. -/
theorem C7_skip_missing_page (fs : FS) (m : String) (script : List CallResult)
    (h : fs (moduleDocPath m) = none) :
    enhanceModuleDocumentation fs m script = (fs, script) := by
  simp [enhanceModuleDocumentation, readModuleDoc, h]

/-- C7 witness: the empty tree has no sales page, and enhancing sales leaves
the tree untouched. -/
theorem C7_skip_missing_page_witness :
    fsEmpty (moduleDocPath "sales") = none ∧
    enhanceModuleDocumentation fsEmpty "sales" [.success "text"] =
      (fsEmpty, [.success "text"]) :=
  ⟨rfl, C7_skip_missing_page fsEmpty "sales" [.success "text"] rfl⟩

/-- C9: enhancing the architecture overview with non-empty insights appends:
when the page exists, its new content is exactly the old content followed by
the "AI-Generated Insights" heading and the insights (the old content is a
verbatim prefix), no other path changes; when the page does not exist, no
write occurs at all. -/
theorem C9_overview_append (fs : FS) (ins : String) (hins : ins ≠ "") :
    (∀ cur, fs overviewPath = some cur →
      (enhanceArchitectureOverview fs (some ins)) overviewPath =
          some (cur ++ insightsHeading ++ ins) ∧
        ∀ p, p ≠ overviewPath → (enhanceArchitectureOverview fs (some ins)) p = fs p) ∧
    (fs overviewPath = none → enhanceArchitectureOverview fs (some ins) = fs) := by
  constructor
  · intro cur hcur
    constructor
    · simp [enhanceArchitectureOverview, hins, hcur, fsWrite]
    · intro p hp
      simp [enhanceArchitectureOverview, hins, hcur, fsWrite, hp]
  · intro hnone
    simp [enhanceArchitectureOverview, hins, hnone]

/-- C9 witness: on a tree with an overview page, the enhancement appends under
the heading and leaves another path untouched; on the empty tree it writes
nothing. -/
theorem C9_overview_append_witness :
    ((enhanceArchitectureOverview fsWithOverview (some "insights")) overviewPath =
        some ("old overview" ++ insightsHeading ++ "insights") ∧
      (enhanceArchitectureOverview fsWithOverview (some "insights")) "other.mdx" =
        fsWithOverview "other.mdx") ∧
    enhanceArchitectureOverview fsEmpty (some "insights") = fsEmpty :=
  ⟨⟨((C9_overview_append fsWithOverview "insights" (by decide)).1 "old overview" rfl).1,
    ((C9_overview_append fsWithOverview "insights" (by decide)).1 "old overview" rfl).2
      "other.mdx" (by decide)⟩,
   (C9_overview_append fsEmpty "insights" (by decide)).2 rfl⟩

/-- C1 counterexample: the claim says a call that is rate-limited twice is
treated as a failure for that page with zero writes.  In the code, `callClaude`
retries recursively on every 429: with the script (429, 429, success) it makes
a third attempt, returns the successful text after two backoff waits, and the
page is written. -/
theorem C1_counterexample :
    callClaude [.rateLimited, .rateLimited, .success "enhanced"] =
      (some "enhanced", [], 2) ∧
    (enhanceModuleDocumentation fsWithSales "sales"
        [.rateLimited, .rateLimited, .success "enhanced"]).1 (moduleDocPath "sales") =
      some "enhanced" := by
  constructor
  · decide
  · decide

/-- C1 as amended: on each rate-limit signal `callClaude` waits the fixed
60-second backoff and retries the same request recursively with no retry
bound: after any number `k` of consecutive rate-limits it returns the first
non-rate-limited outcome (success text, or `null` — hence zero writes — on a
non-429 error), having waited `k` times; the per-page loop continues either
way. -/
theorem C1_unbounded_retry (k : Nat) (s : String) (rest : List CallResult) :
    callClaude (List.replicate k .rateLimited ++ .success s :: rest) = (some s, rest, k) ∧
    callClaude (List.replicate k .rateLimited ++ .failure :: rest) = (none, rest, k) := by
  induction k with
  | zero => simp [callClaude]
  | succ n ih =>
    refine ⟨?_, ?_⟩ <;>
      simp [List.replicate_succ, callClaude, ih.1, ih.2]


theorem stripPfx_nil (s : List Char) : stripPfx [] s = some s := rfl

theorem stripPfx_cons (c : Char) (p s : List Char) :
    stripPfx (c :: p) (c :: s) = stripPfx p s := by
  simp [stripPfx]

theorem commitChanges_all_shape (msg : String) (a : ChangeAnalysis) (o : Oracles) :
    (commitChanges msg a o).all commitShape = true := by
  obtain ⟨osync, ogen, ogs, oga, ogc, ogp, oen, ots, oap, ok1, ok2⟩ := o
  unfold commitChanges
  rcases ogs with e | stdout <;> dsimp only
  · simp only [List.cons_append, List.nil_append, List.append_assoc, List.all_cons,
      List.all_nil, List.all_append, commitShape, String.data_append, stripPfx_cons,
      stripPfx_nil, stripPfx_self_append, Option.isSome_some, beq_self_eq_true,
      Bool.or_true, Bool.true_or, Bool.and_true, Bool.true_and]
  · by_cases ht : (jsTrim stdout == "") = true
    · rw [if_pos ht]
      rfl
    · rw [if_neg ht]
      rcases oga with e | u <;> dsimp only
      · simp only [List.cons_append, List.nil_append, List.append_assoc, List.all_cons,
          List.all_nil, List.all_append, commitShape, String.data_append, stripPfx_cons,
          stripPfx_nil, stripPfx_self_append, Option.isSome_some, beq_self_eq_true,
          Bool.or_true, Bool.true_or, Bool.and_true, Bool.true_and]
      · rcases ogc with e2 | u2 <;> dsimp only
        · simp only [List.cons_append, List.nil_append, List.append_assoc, List.all_cons,
            List.all_nil, List.all_append, commitShape, String.data_append, stripPfx_cons,
            stripPfx_nil, stripPfx_self_append, Option.isSome_some, beq_self_eq_true,
            Bool.or_true, Bool.true_or, Bool.and_true, Bool.true_and]
        · rcases oap with _ | _ <;> rcases ogp with e3 | u3 <;> dsimp only <;>
            simp only [List.cons_append, List.nil_append, List.append_assoc, List.all_cons,
              List.all_nil, List.all_append, commitShape, String.data_append, stripPfx_cons,
              stripPfx_nil, stripPfx_self_append, Option.isSome_some, beq_self_eq_true,
              Bool.or_true, Bool.true_or, Bool.and_true, Bool.true_and,
              Bool.false_eq_true, if_false, eq_self_iff_true, if_true]

theorem all_quickShape_of_commit {l : List Act} (h : l.all commitShape = true) :
    l.all quickShape = true := by
  rw [List.all_eq_true] at h ⊢
  intro x hx
  have hc := h x hx
  simp only [quickShape, hc, Bool.true_or]

theorem all_aiShape_of_commit {l : List Act} (h : l.all commitShape = true) :
    l.all aiShape = true := by
  rw [List.all_eq_true] at h ⊢
  intro x hx
  have hc := h x hx
  simp only [aiShape, hc, Bool.true_or]

theorem quickUpdate_all_shape (a : ChangeAnalysis) (o : Oracles) :
    (quickUpdate a o).all quickShape = true := by
  unfold quickUpdate quickUpdateAfterSync
  by_cases hat : a.types = true
  · rw [if_pos hat]
    rcases hsync : o.syncTypes with e | u <;> dsimp only
    · simp only [List.cons_append, List.nil_append, List.all_cons, List.all_nil,
        quickShape, commitShape, String.data_append, List.append_assoc, stripPfx_cons,
        stripPfx_nil, stripPfx_self_append, Option.isSome_some, beq_self_eq_true,
        Bool.or_true, Bool.true_or, Bool.and_true, Bool.true_and]
    · rcases hgen : o.generateDocs with e | u <;> dsimp only
      · simp only [List.cons_append, List.nil_append, List.all_cons, List.all_nil,
          quickShape, commitShape, String.data_append, List.append_assoc, stripPfx_cons,
          stripPfx_nil, stripPfx_self_append, Option.isSome_some, beq_self_eq_true,
          Bool.or_true, Bool.true_or, Bool.and_true, Bool.true_and]
      · simp only [List.cons_append, List.nil_append, List.all_cons, List.all_append,
          quickShape, commitShape, beq_self_eq_true, Bool.or_true, Bool.true_or,
          Bool.and_true, Bool.true_and]
        exact all_quickShape_of_commit (commitChanges_all_shape _ _ _)
  · rw [if_neg hat]
    rcases hgen : o.generateDocs with e | u <;> dsimp only
    · simp only [List.cons_append, List.nil_append, List.all_cons, List.all_nil,
        quickShape, commitShape, String.data_append, List.append_assoc, stripPfx_cons,
        stripPfx_nil, stripPfx_self_append, Option.isSome_some, beq_self_eq_true,
        Bool.or_true, Bool.true_or, Bool.and_true, Bool.true_and]
    · simp only [List.cons_append, List.nil_append, List.all_cons, List.all_append,
        quickShape, commitShape, beq_self_eq_true, Bool.or_true, Bool.true_or,
        Bool.and_true, Bool.true_and]
      exact all_quickShape_of_commit (commitChanges_all_shape _ _ _)

theorem aiEnhancedUpdate_all_shape (a : ChangeAnalysis) (o : Oracles) :
    (aiEnhancedUpdate a o).all aiShape = true := by
  unfold aiEnhancedUpdate
  by_cases hk : (o.hasAnthropicKey || o.hasOpenAIKey) = true
  · rw [if_neg (by simp [hk])]
    rcases hen : o.enhanceScript with e | u <;> dsimp only
    · simp only [List.cons_append, List.nil_append, List.all_cons, List.all_nil,
        aiShape, commitShape, String.data_append, List.append_assoc, stripPfx_cons,
        stripPfx_nil, stripPfx_self_append, Option.isSome_some, beq_self_eq_true,
        Bool.or_true, Bool.true_or, Bool.and_true, Bool.true_and]
    · simp only [List.cons_append, List.nil_append, List.all_cons, List.all_append,
        aiShape, commitShape, beq_self_eq_true, Bool.or_true, Bool.true_or,
        Bool.and_true, Bool.true_and]
      exact all_aiShape_of_commit (commitChanges_all_shape _ _ _)
  · rw [if_pos (by simp [hk])]
    simp only [List.cons_append, List.nil_append, List.all_cons, List.all_nil,
      aiShape, commitShape, beq_self_eq_true, Bool.or_true, Bool.true_or,
      Bool.and_true, Bool.true_and]

theorem not_mem_quickUpdate_of_shape {x : Act} (hx : quickShape x = false)
    (a : ChangeAnalysis) (o : Oracles) : x ∉ quickUpdate a o := by
  intro h
  have := List.all_eq_true.mp (quickUpdate_all_shape a o) x h
  rw [hx] at this
  exact Bool.false_ne_true this

theorem not_mem_aiEnhancedUpdate_of_shape {x : Act} (hx : aiShape x = false)
    (a : ChangeAnalysis) (o : Oracles) : x ∉ aiEnhancedUpdate a o := by
  intro h
  have := List.all_eq_true.mp (aiEnhancedUpdate_all_shape a o) x h
  rw [hx] at this
  exact Bool.false_ne_true this

theorem procLog_ne_aiLog (n : Nat) :
    "🔄 Processing " ++ toString n ++ " accumulated changes..." ≠
      "🤖 Running AI-enhanced documentation update..." := by
  rw [String.append_assoc]
  exact ne_of_headCharNe (by decide) _

/-- C4: a batch (non-empty, no batch in flight) always triggers the quick
deterministic update, and triggers the AI-enhanced update exactly when the
number of distinct pending paths meets the threshold (3): the boundary is
inclusive. -/
theorem C4_threshold (st : WatcherState) (o : Oracles)
    (h1 : st.isProcessing = false) (h2 : st.pendingChanges ≠ []) :
    Act.log "⚡ Running quick documentation update..." ∈
      (processAccumulatedChanges st o).2 ∧
    (Act.log "🤖 Running AI-enhanced documentation update..." ∈
        (processAccumulatedChanges st o).2 ↔
      aiUpdateThreshold ≤ st.pendingChanges.length) := by
  have e1 : st.pendingChanges.isEmpty = false := by
    cases hq : st.pendingChanges with
    | nil => exact absurd hq h2
    | cons a t => rfl
  unfold processAccumulatedChanges
  rw [h1, e1]
  simp only [Bool.or_self, Bool.false_eq_true, if_false]
  constructor
  · have hq : Act.log "⚡ Running quick documentation update..." ∈
        quickUpdate (analyzeChanges st.pendingChanges) o := by
      unfold quickUpdate
      simp
    simp only [List.mem_append, List.mem_cons]
    tauto
  · constructor
    · intro hmem
      by_contra hlt
      rw [if_neg (by omega)] at hmem
      simp only [List.mem_append, List.mem_cons, List.not_mem_nil, or_false,
        false_or] at hmem
      rcases hmem with (h | h) | h
      · exact procLog_ne_aiLog _ (Act.log.inj h.symm)
      · exact not_mem_quickUpdate_of_shape (by decide) _ o h
      · exact absurd h (by decide)
    · intro hge
      rw [if_pos hge]
      have hmem : Act.log "🤖 Running AI-enhanced documentation update..." ∈
          aiEnhancedUpdate (analyzeChanges st.pendingChanges) o := by
        unfold aiEnhancedUpdate
        simp
      simp only [List.mem_append, List.mem_cons]
      tauto

/-- C4 witness: with an all-success oracle, a 2-path batch runs the quick
update only, and a 3-path batch also triggers the AI-enhanced update. -/
theorem C4_threshold_witness :
    Act.log "⚡ Running quick documentation update..." ∈
      (processAccumulatedChanges stBatch2 oAllOk).2 ∧
    Act.log "🤖 Running AI-enhanced documentation update..." ∉
      (processAccumulatedChanges stBatch2 oAllOk).2 ∧
    Act.log "🤖 Running AI-enhanced documentation update..." ∈
      (processAccumulatedChanges stBatch3 oAllOk).2 := by
  refine ⟨(C4_threshold stBatch2 oAllOk rfl (by decide)).1, ?_,
    (C4_threshold stBatch3 oAllOk rfl (by decide)).2.mpr (by decide)⟩
  intro hmem
  exact absurd ((C4_threshold stBatch2 oAllOk rfl (by decide)).2.mp hmem) (by decide)

/-- C2 counterexample: in a failing batch (regeneration errors out), the
pending set is cleared, the failure line carries only the error message, and
no log line mentions any of the changed paths — the claim that "the failure is
logged together with the full change-set" is false on this run. -/
theorem C2_counterexample :
    (processAccumulatedChanges stBatch3 oRegenFail).1.pendingChanges = [] ∧
    "❌ Quick update failed: boom" ∈
      logLines (processAccumulatedChanges stBatch3 oRegenFail).2 ∧
    (logLines (processAccumulatedChanges stBatch3 oRegenFail).2).all
      (fun line => !containsSub line "z1") = true := by
  decide

/-- C2 as amended: the pending set is cleared (in fact before processing
starts) and the in-flight flag reset after every batch; a failure during
processing is caught and logged with the error message only — the logs depend
on the batch only through its size and its classification, so the change-set
itself never appears in a failure log and cannot be replayed from it. -/
theorem C2_cleared_and_changeset_free_logs (st1 st2 : WatcherState) (o : Oracles)
    (h1 : st1.isProcessing = false) (h2 : st1.pendingChanges ≠ [])
    (h1' : st2.isProcessing = false) (h2' : st2.pendingChanges ≠ [])
    (hlen : st1.pendingChanges.length = st2.pendingChanges.length)
    (hana : analyzeChanges st1.pendingChanges = analyzeChanges st2.pendingChanges) :
    (processAccumulatedChanges st1 o).1 = ⟨[], false⟩ ∧
    (processAccumulatedChanges st1 o).2 = (processAccumulatedChanges st2 o).2 := by
  have e1 : st1.pendingChanges.isEmpty = false := by
    cases hq : st1.pendingChanges with
    | nil => exact absurd hq h2
    | cons a t => rfl
  have e2 : st2.pendingChanges.isEmpty = false := by
    cases hq : st2.pendingChanges with
    | nil => exact absurd hq h2'
    | cons a t => rfl
  unfold processAccumulatedChanges
  rw [h1, h1', e1, e2]
  simp only [Bool.or_self, Bool.false_eq_true, if_false]
  exact ⟨by trivial, by rw [hlen, hana]⟩

/-- C2 witness: two different 3-path batches with the same size and the same
(empty) classification leave the same cleared state and identical logs. -/
theorem C2_cleared_witness :
    (processAccumulatedChanges stBatch3 oRegenFail).1 = ⟨[], false⟩ ∧
    (processAccumulatedChanges stBatch3 oRegenFail).2 =
      (processAccumulatedChanges stBatch3b oRegenFail).2 :=
  C2_cleared_and_changeset_free_logs stBatch3 stBatch3b oRegenFail rfl (by decide)
    rfl (by decide) (by decide) (by decide)

/-- C3 counterexample: with regeneration failing (`boom`) on a 3-path batch,
the AI enhancement script is still executed — the claim that enhancement never
starts in a batch whose deterministic regeneration failed is false on this
run. -/
theorem C3_counterexample :
    "❌ Quick update failed: boom" ∈
      logLines (processAccumulatedChanges stBatch3 oRegenFail).2 ∧
    Act.exec "node scripts/enhance-with-ai.js" ∈
      (processAccumulatedChanges stBatch3 oRegenFail).2 := by
  decide

/-- C3 as amended: within a batch the deterministic quick update runs to
completion — catching any failure internally — strictly before the AI
enhancement step begins (the trace splits into a quick phase with no enhancer
invocation followed by a phase with no regeneration invocation); regeneration
is attempted in the first phase whenever the type-sync step does not fail
first; but a regeneration failure does not abort the batch: the enhancement
step still starts whenever the threshold is met and an API key is present. -/
theorem C3_regeneration_before_enhancement (st : WatcherState) (o : Oracles)
    (h1 : st.isProcessing = false) (h2 : st.pendingChanges ≠ []) :
    ∃ t1 t2, (processAccumulatedChanges st o).2 = t1 ++ t2 ∧
      Act.exec "node scripts/enhance-with-ai.js" ∉ t1 ∧
      Act.exec "node scripts/generate-docs.js" ∉ t2 ∧
      (aiUpdateThreshold ≤ st.pendingChanges.length →
        (o.hasAnthropicKey || o.hasOpenAIKey) = true →
        Act.exec "node scripts/enhance-with-ai.js" ∈ t2) ∧
      ((analyzeChanges st.pendingChanges).types = false ∨ o.syncTypes = .ok () →
        Act.exec "node scripts/generate-docs.js" ∈ t1) := by
  have e1 : st.pendingChanges.isEmpty = false := by
    cases hq : st.pendingChanges with
    | nil => exact absurd hq h2
    | cons a t => rfl
  refine ⟨Act.log ("🔄 Processing " ++ toString st.pendingChanges.length ++
      " accumulated changes...") :: quickUpdate (analyzeChanges st.pendingChanges) o,
    (if aiUpdateThreshold ≤ st.pendingChanges.length then
      aiEnhancedUpdate (analyzeChanges st.pendingChanges) o
     else []) ++ [Act.log "✅ Documentation updated successfully"],
    ?_, ?_, ?_, ?_, ?_⟩
  · unfold processAccumulatedChanges
    rw [h1, e1]
    simp only [Bool.or_self, Bool.false_eq_true, if_false]
    simp [List.append_assoc, ge_iff_le]
  · intro h
    rcases List.mem_cons.mp h with h | h
    · simp at h
    · exact not_mem_quickUpdate_of_shape (by decide) _ o h
  · intro h
    rcases List.mem_append.mp h with h | h
    · by_cases hth : aiUpdateThreshold ≤ st.pendingChanges.length
      · rw [if_pos hth] at h
        exact not_mem_aiEnhancedUpdate_of_shape (by decide) _ o h
      · rw [if_neg hth] at h
        exact List.not_mem_nil _ h
    · simp at h
  · intro hth hk
    rw [if_pos hth]
    refine List.mem_append.mpr (Or.inl ?_)
    unfold aiEnhancedUpdate
    simp [hk]
  · intro hc
    refine List.mem_cons.mpr (Or.inr ?_)
    rcases hc with hty | hsy
    · simp [quickUpdate, quickUpdateAfterSync, hty]
    · by_cases hty : (analyzeChanges st.pendingChanges).types = true
      · simp [quickUpdate, quickUpdateAfterSync, hty, hsy]
      · simp [quickUpdate, quickUpdateAfterSync, hty]

/-- C3 witness: the split exists for the concrete failing 3-path batch. -/
theorem C3_regeneration_before_enhancement_witness :
    ∃ t1 t2, (processAccumulatedChanges stBatch3 oRegenFail).2 = t1 ++ t2 ∧
      Act.exec "node scripts/enhance-with-ai.js" ∉ t1 ∧
      Act.exec "node scripts/generate-docs.js" ∉ t2 ∧
      (aiUpdateThreshold ≤ stBatch3.pendingChanges.length →
        (oRegenFail.hasAnthropicKey || oRegenFail.hasOpenAIKey) = true →
        Act.exec "node scripts/enhance-with-ai.js" ∈ t2) ∧
      ((analyzeChanges stBatch3.pendingChanges).types = false ∨
          oRegenFail.syncTypes = .ok () →
        Act.exec "node scripts/generate-docs.js" ∈ t1) :=
  C3_regeneration_before_enhancement stBatch3 oRegenFail rfl (by decide)

/-- C6: the generated `modules/overview.mdx` and `api-reference/introduction.mdx`
report counts derived from the configuration at generation time: for any
configuration, the overview contains "organized into **M core business
modules**" with `M` the number of configured modules and, for every configured
module, a card reporting that module's entity count; the API introduction
likewise contains "across M modules" and per-module "e entities available"
cards. -/
theorem C6_derived_counts (ms : List ModuleDescriptor) :
    (∃ p q, modulesOverview ms =
      p ++ ("organized into **" ++ toString ms.length ++ " core business modules**") ++ q) ∧
    (∀ m, m ∈ ms → ∃ p q, modulesOverview ms =
      p ++ (toString m.entities.length ++ " entities • ") ++ q) ∧
    (∃ p q, apiIntroduction ms =
      p ++ ("across " ++ toString ms.length ++ " modules") ++ q) ∧
    (∀ m, m ∈ ms → ∃ p q, apiIntroduction ms =
      p ++ (toString m.entities.length ++ " entities available") ++ q) := by
  refine ⟨⟨modulesOverviewPre,
      modulesOverviewMid ++ jsJoin "\n" (ms.map moduleOverviewCard) ++ modulesOverviewTail,
      rfl⟩, ?_,
    ⟨apiIntroductionPre,
      apiIntroductionMid ++ jsJoin "\n" (ms.map apiIntroCard) ++ "\n</CardGroup>\n",
      rfl⟩, ?_⟩
  · intro m hm
    obtain ⟨p, q, hjoin⟩ :=
      jsJoin_decomp "\n" (List.mem_map_of_mem moduleOverviewCard hm)
    refine ⟨modulesOverviewPre ++
        ("organized into **" ++ toString ms.length ++ " core business modules**") ++
        modulesOverviewMid ++ p ++ moduleOverviewCardPre m,
      moduleOverviewCardRest m ++ q ++ modulesOverviewTail, ?_⟩
    simp only [modulesOverview, hjoin, moduleOverviewCard, String.append_assoc]
  · intro m hm
    obtain ⟨p, q, hjoin⟩ :=
      jsJoin_decomp "\n" (List.mem_map_of_mem apiIntroCard hm)
    refine ⟨apiIntroductionPre ++ ("across " ++ toString ms.length ++ " modules") ++
        apiIntroductionMid ++ p ++ apiIntroCardPre m,
      "\n  </Card>" ++ q ++ "\n</CardGroup>\n", ?_⟩
    simp only [apiIntroduction, hjoin, apiIntroCard, String.append_assoc]

/-- C6 witness: on the repository's own configuration, the overview reports
the module count, and the school module's card reports its 2 entities. -/
theorem C6_derived_counts_witness :
    (∃ p q, modulesOverview configModules =
      p ++ ("organized into **" ++ toString configModules.length ++
        " core business modules**") ++ q) ∧
    (∃ p q, modulesOverview configModules =
      p ++ (toString (ModuleDescriptor.mk "school" ["school-class", "student"]
          false false).entities.length ++ " entities • ") ++ q) :=
  ⟨(C6_derived_counts configModules).1,
   (C6_derived_counts configModules).2.1
     ⟨"school", ["school-class", "student"], false, false⟩ (by decide)⟩

theorem dropWs_cons (c : Char) (h : isJsonWs c = false) (s : List Char) :
    dropWs (c :: s) = c :: s := by
  simp [dropWs, List.dropWhile_cons, h]

theorem roundStrBody (s rest : List Char) :
    parseStrBody (escStr s ++ '"' :: rest) = some (s, rest) := by
  induction s with
  | nil => rw [escStr, List.nil_append, parseStrBody.eq_def]; simp
  | cons c cs ih =>
    by_cases h1 : c = '"'
    · subst h1
      rw [escStr]
      rw [show escChar '"' ++ escStr cs ++ '"' :: rest =
        '\\' :: '"' :: (escStr cs ++ '"' :: rest) by simp [escChar]]
      rw [parseStrBody.eq_def]
      simp [ih]
    · by_cases h2 : c = '\\'
      · subst h2
        rw [escStr]
        rw [show escChar '\\' ++ escStr cs ++ '"' :: rest =
          '\\' :: '\\' :: (escStr cs ++ '"' :: rest) by simp [escChar]]
        rw [parseStrBody.eq_def]
        simp [ih]
      · rw [escStr]
        rw [show escChar c ++ escStr cs ++ '"' :: rest =
          c :: (escStr cs ++ '"' :: rest) by simp [escChar, h1, h2]]
        rw [parseStrBody.eq_def]
        simp [h1, h2, ih]

theorem serJson_head_spec (w : Json) :
    ∃ c tl, serJson w = c :: tl ∧ isJsonWs c = false ∧ c ≠ ']' := by
  cases w with
  | null => exact ⟨'n', _, rfl, by decide, by decide⟩
  | bool b =>
    cases b with
    | true => exact ⟨'t', _, rfl, by decide, by decide⟩
    | false => exact ⟨'f', _, rfl, by decide, by decide⟩
  | str s => exact ⟨'"', _, rfl, by decide, by decide⟩
  | arr l => exact ⟨'[', _, rfl, by decide, by decide⟩
  | obj o => exact ⟨lbrace, _, rfl, by decide, by decide⟩

mutual

theorem roundVal : ∀ (v : Json) (fuel : Nat) (rest : List Char), jsize v ≤ fuel →
    parseJsonVal fuel (serJson v ++ rest) = some (v, rest)
  | .null, 0, _, h => absurd h (by decide)
  | .null, fuel + 1, rest, _ => by
      simp [serJson, parseJsonVal, dropWs_cons, isJsonWs]
  | .bool true, 0, _, h => absurd h (by decide)
  | .bool true, fuel + 1, rest, _ => by
      simp [serJson, parseJsonVal, dropWs_cons, isJsonWs]
  | .bool false, 0, _, h => absurd h (by decide)
  | .bool false, fuel + 1, rest, _ => by
      simp [serJson, parseJsonVal, dropWs_cons, isJsonWs]
  | .str s, 0, _, h => absurd h (by simp [jsize])
  | .str s, fuel + 1, rest, _ => by
      have hstr := roundStrBody s rest
      simp [serJson, parseJsonVal, dropWs_cons, isJsonWs, hstr]
  | .arr .nil, 0, _, h => absurd h (by simp [jsize, asize])
  | .arr .nil, fuel + 1, rest, _ => by
      simp [serJson, serArrItems, parseJsonVal, dropWs_cons, isJsonWs]
  | .arr (.cons w l), 0, _, h => absurd h (by simp only [jsize]; omega)
  | .arr (.cons w l), fuel + 1, rest, h => by
      obtain ⟨c, tl, hser, hws, hne⟩ := serJson_head_spec w
      have hsize : asize (.cons w l) ≤ fuel := by
        simp only [jsize] at h
        omega
      obtain ⟨T, hT⟩ : ∃ T, serArrItems (.cons w l) ++ (']' :: rest) = c :: T := by
        cases l with
        | nil => exact ⟨tl ++ (']' :: rest), by simp [serArrItems, hser]⟩
        | cons w2 l2 =>
          exact ⟨tl ++ ((',' :: serArrItems (.cons w2 l2)) ++ (']' :: rest)),
            by simp [serArrItems, hser]⟩
      have harr := roundArr w l fuel rest hsize
      have hmain : serJson (.arr (.cons w l)) ++ rest =
          '[' :: (serArrItems (.cons w l) ++ (']' :: rest)) := by
        simp [serJson]
      rw [hmain, hT]
      simp only [parseJsonVal]
      rw [dropWs_cons '[' (by decide)]
      dsimp only
      rw [if_neg (by decide), if_neg (by decide), if_neg (by decide),
        if_neg (by decide), if_pos rfl]
      rw [dropWs_cons c hws]
      dsimp only
      rw [if_neg hne]
      rw [← hT, harr]
  | .obj .nil, 0, _, h => absurd h (by simp [jsize, osize])
  | .obj .nil, fuel + 1, rest, _ => by
      simp [serJson, serObjItems, parseJsonVal, dropWs_cons, isJsonWs, lbrace, rbrace]
  | .obj (.cons k v o), 0, _, h => absurd h (by simp only [jsize]; omega)
  | .obj (.cons k v o), fuel + 1, rest, h => by
      have hsize : osize (.cons k v o) ≤ fuel := by
        simp only [jsize] at h
        omega
      obtain ⟨T, hT⟩ : ∃ T, serObjItems (.cons k v o) ++ (rbrace :: rest) = '"' :: T := by
        cases o with
        | nil => exact ⟨(escStr k ++ '"' :: ':' :: serJson v) ++ (rbrace :: rest),
            by rw [show serObjItems (JsonObj.cons k v JsonObj.nil) =
              '"' :: (escStr k ++ '"' :: ':' :: serJson v) from rfl]; simp⟩
        | cons k2 v2 o2 =>
          exact ⟨((escStr k ++ '"' :: ':' :: serJson v) ++
              (',' :: serObjItems (.cons k2 v2 o2))) ++ (rbrace :: rest),
            by rw [show serObjItems (JsonObj.cons k v (JsonObj.cons k2 v2 o2)) =
              ('"' :: (escStr k ++ '"' :: ':' :: serJson v)) ++
                ',' :: serObjItems (JsonObj.cons k2 v2 o2) from rfl]; simp⟩
      have hobj := roundObj k v o fuel rest hsize
      have hmain : serJson (.obj (.cons k v o)) ++ rest =
          lbrace :: (serObjItems (.cons k v o) ++ (rbrace :: rest)) := by
        simp [serJson]
      rw [hmain, hT]
      simp only [parseJsonVal]
      rw [dropWs_cons lbrace (by decide)]
      dsimp only
      rw [if_neg (by decide), if_neg (by decide), if_neg (by decide),
        if_neg (by decide), if_neg (by decide), if_pos rfl]
      rw [dropWs_cons '"' (by decide)]
      dsimp only
      rw [if_neg (by decide)]
      rw [← hT, hobj]

theorem roundArr : ∀ (v : Json) (l : JsonArr) (fuel : Nat) (rest : List Char),
    asize (.cons v l) ≤ fuel →
    parseArrItems fuel (serArrItems (.cons v l) ++ (']' :: rest)) = some (.cons v l, rest)
  | v, l, 0, _, h => absurd h (by simp only [asize]; omega)
  | v, l, fuel + 1, rest, h => by
      have hv : jsize v ≤ fuel := by
        simp only [asize] at h
        omega
      cases l with
      | nil =>
        have hval := roundVal v fuel (']' :: rest) hv
        rw [show serArrItems (JsonArr.cons v JsonArr.nil) = serJson v from rfl]
        simp only [parseArrItems]
        rw [hval]
        dsimp only
        rw [dropWs_cons ']' (by decide)]
        dsimp only
        rw [if_neg (by decide), if_pos rfl]
      | cons w l2 =>
        have hval := roundVal v fuel
          (',' :: (serArrItems (.cons w l2) ++ (']' :: rest))) hv
        have hrec := roundArr w l2 fuel rest (by simp only [asize] at h ⊢; omega)
        have hmain : serArrItems (.cons v (.cons w l2)) ++ (']' :: rest) =
            serJson v ++ (',' :: (serArrItems (.cons w l2) ++ (']' :: rest))) := by
          rw [show serArrItems (JsonArr.cons v (JsonArr.cons w l2)) =
            serJson v ++ ',' :: serArrItems (JsonArr.cons w l2) from rfl]
          simp
        rw [hmain]
        simp only [parseArrItems]
        rw [hval]
        dsimp only
        rw [dropWs_cons ',' (by decide)]
        dsimp only
        rw [if_pos rfl, hrec]

theorem roundObj : ∀ (k : List Char) (v : Json) (o : JsonObj) (fuel : Nat)
    (rest : List Char), osize (.cons k v o) ≤ fuel →
    parseObjItems fuel (serObjItems (.cons k v o) ++ (rbrace :: rest)) =
      some (.cons k v o, rest)
  | k, v, o, 0, _, h => absurd h (by simp only [osize]; omega)
  | k, v, o, fuel + 1, rest, h => by
      have hv : jsize v ≤ fuel := by
        simp only [osize] at h
        omega
      cases o with
      | nil =>
        have hval := roundVal v fuel (rbrace :: rest) hv
        have hstr := roundStrBody k (':' :: (serJson v ++ (rbrace :: rest)))
        have hmain : serObjItems (.cons k v .nil) ++ (rbrace :: rest) =
            '"' :: (escStr k ++ '"' :: (':' :: (serJson v ++ (rbrace :: rest)))) := by
          rw [show serObjItems (JsonObj.cons k v JsonObj.nil) =
            '"' :: (escStr k ++ '"' :: ':' :: serJson v) from rfl]
          simp
        rw [hmain]
        simp only [parseObjItems]
        rw [dropWs_cons '"' (by decide)]
        dsimp only
        rw [if_pos rfl, hstr]
        dsimp only
        rw [dropWs_cons ':' (by decide)]
        dsimp only
        rw [if_pos rfl, hval]
        dsimp only
        rw [dropWs_cons rbrace (by decide)]
        dsimp only
        rw [if_neg (by decide), if_pos rfl]
      | cons k2 v2 o2 =>
        have hval := roundVal v fuel
          (',' :: (serObjItems (.cons k2 v2 o2) ++ (rbrace :: rest))) hv
        have hstr := roundStrBody k (':' :: (serJson v ++
          (',' :: (serObjItems (.cons k2 v2 o2) ++ (rbrace :: rest)))))
        have hrec := roundObj k2 v2 o2 fuel rest (by simp only [osize] at h ⊢; omega)
        have hmain : serObjItems (.cons k v (.cons k2 v2 o2)) ++ (rbrace :: rest) =
            '"' :: (escStr k ++ '"' :: (':' :: (serJson v ++
              (',' :: (serObjItems (.cons k2 v2 o2) ++ (rbrace :: rest)))))) := by
          rw [show serObjItems (JsonObj.cons k v (JsonObj.cons k2 v2 o2)) =
            ('"' :: (escStr k ++ '"' :: ':' :: serJson v)) ++
              ',' :: serObjItems (JsonObj.cons k2 v2 o2) from rfl]
          simp
        rw [hmain]
        simp only [parseObjItems]
        rw [dropWs_cons '"' (by decide)]
        dsimp only
        rw [if_pos rfl, hstr]
        dsimp only
        rw [dropWs_cons ':' (by decide)]
        dsimp only
        rw [if_pos rfl, hval]
        dsimp only
        rw [dropWs_cons ',' (by decide)]
        dsimp only
        rw [if_pos rfl, hrec]

end

mutual

theorem jsize_lt_ser_length : ∀ v : Json, jsize v < (serJson v).length
  | .null => by simp [jsize, serJson]
  | .bool b => by cases b <;> simp [jsize, serJson]
  | .str s => by simp [jsize, serJson]
  | .arr l => by
      have h := asize_le_ser_length l
      simp only [jsize, serJson, List.length_cons, List.length_append,
        List.length_singleton]
      omega
  | .obj o => by
      have h := osize_le_ser_length o
      simp only [jsize, serJson, List.length_cons, List.length_append,
        List.length_singleton]
      omega

theorem asize_le_ser_length : ∀ l : JsonArr, asize l ≤ (serArrItems l).length
  | .nil => by simp [asize, serArrItems]
  | .cons v .nil => by
      have h := jsize_lt_ser_length v
      rw [show serArrItems (JsonArr.cons v JsonArr.nil) = serJson v from rfl]
      simp only [asize]
      omega
  | .cons v (.cons w l2) => by
      have h1 := jsize_lt_ser_length v
      have h2 := asize_le_ser_length (.cons w l2)
      rw [show serArrItems (JsonArr.cons v (JsonArr.cons w l2)) =
        serJson v ++ ',' :: serArrItems (JsonArr.cons w l2) from rfl]
      simp only [asize] at h2
      simp only [asize, List.length_append, List.length_cons]
      omega

theorem osize_le_ser_length : ∀ o : JsonObj, osize o ≤ (serObjItems o).length
  | .nil => by simp [osize, serObjItems]
  | .cons k v .nil => by
      have h := jsize_lt_ser_length v
      rw [show serObjItems (JsonObj.cons k v JsonObj.nil) =
        '"' :: (escStr k ++ '"' :: ':' :: serJson v) from rfl]
      simp only [osize, List.length_cons, List.length_append]
      omega
  | .cons k v (.cons k2 v2 o2) => by
      have h1 := jsize_lt_ser_length v
      have h2 := osize_le_ser_length (.cons k2 v2 o2)
      simp only [osize] at h2
      rw [show serObjItems (JsonObj.cons k v (JsonObj.cons k2 v2 o2)) =
        ('"' :: (escStr k ++ '"' :: ':' :: serJson v)) ++
          ',' :: serObjItems (JsonObj.cons k2 v2 o2) from rfl]
      simp only [osize, List.length_cons, List.length_append]
      omega

end

theorem parseJsonTop_ser (v : Json) : parseJsonTop (serJson v) = some v := by
  unfold parseJsonTop
  have h1 := roundVal v ((serJson v).length + 1) []
    (by have := jsize_lt_ser_length v; omega)
  rw [List.append_nil] at h1
  rw [h1]
  simp [dropWs]

theorem objLookup_objSet_self : ∀ (o : JsonObj) (k : List Char) (v : Json),
    objLookup (objSet o k v) k = some v
  | .nil, k, v => by simp [objSet, objLookup]
  | .cons k' v' rest, k, v => by
    by_cases h : k' = k
    · subst h
      simp [objSet, objLookup]
    · simp [objSet, objLookup, h, objLookup_objSet_self rest k v]

theorem objLookup_objSet_ne : ∀ (o : JsonObj) (k k' : List Char) (v : Json),
    k ≠ k' → objLookup (objSet o k v) k' = objLookup o k'
  | .nil, k, k', v, h => by simp [objSet, objLookup, h]
  | .cons k2 v2 rest, k, k', v, h => by
    by_cases h2 : k2 = k
    · have hk2 : k2 ≠ k' := by rw [h2]; exact h
      simp [objSet, objLookup, h2, hk2, h]
    · simp [objSet, objLookup, h2, objLookup_objSet_ne rest k k' v h]

theorem objSet_objSet : ∀ (o : JsonObj) (k : List Char) (v : Json),
    objSet (objSet o k v) k v = objSet o k v
  | .nil, k, v => by simp [objSet]
  | .cons k' v' rest, k, v => by
    by_cases h : k' = k
    · subst h
      simp [objSet]
    · simp [objSet, h, objSet_objSet rest k v]

theorem fsWrite_self (fs : FS) (p c : String) (h : fs p = some c) :
    fsWrite fs p c = fs := by
  funext q
  by_cases hq : q = p <;> simp [fsWrite, hq, h]

theorem fsWriteAll_apply_none : ∀ (l : List (String × String)) (fs : FS) (p : String),
    findLastWrite l p = none → fsWriteAll fs l p = fs p
  | [], _, _, _ => rfl
  | (q, c) :: rest, fs, p, h => by
    cases hr : findLastWrite rest p with
    | some c' => simp [findLastWrite, hr] at h
    | none =>
      simp only [findLastWrite, hr] at h
      by_cases hpq : p = q
      · simp [hpq] at h
      · simp only [fsWriteAll]
        rw [fsWriteAll_apply_none rest (fsWrite fs q c) p hr]
        simp [fsWrite, hpq]

theorem fsWriteAll_apply_some : ∀ (l : List (String × String)) (fs : FS) (p c0 : String),
    findLastWrite l p = some c0 → fsWriteAll fs l p = some c0
  | [], _, _, _, h => by simp [findLastWrite] at h
  | (q, c) :: rest, fs, p, c0, h => by
    cases hr : findLastWrite rest p with
    | some c' =>
      simp only [findLastWrite, hr, Option.some.injEq] at h
      subst h
      exact fsWriteAll_apply_some rest (fsWrite fs q c) p c' hr
    | none =>
      simp only [findLastWrite, hr] at h
      by_cases hpq : p = q
      · simp only [hpq, if_true, Option.some.injEq] at h
        subst h
        simp only [fsWriteAll]
        rw [fsWriteAll_apply_none rest (fsWrite fs q c) p hr]
        simp [fsWrite, hpq]
      · simp [hpq] at h

theorem fsWriteAll_eq_self (l : List (String × String)) (g : FS)
    (h : ∀ p c, findLastWrite l p = some c → g p = some c) : fsWriteAll g l = g := by
  funext p
  cases hl : findLastWrite l p with
  | some c => rw [fsWriteAll_apply_some l g p c hl, h p c hl]
  | none => exact fsWriteAll_apply_none l g p hl

theorem findLastWrite_mem : ∀ (l : List (String × String)) (p c : String),
    findLastWrite l p = some c → (p, c) ∈ l
  | [], _, _, h => by simp [findLastWrite] at h
  | (q, cq) :: rest, p, c, h => by
    cases hr : findLastWrite rest p with
    | some c' =>
      simp only [findLastWrite, hr, Option.some.injEq] at h
      subst h
      exact List.mem_cons_of_mem _ (findLastWrite_mem rest p c' hr)
    | none =>
      simp only [findLastWrite, hr] at h
      by_cases hpq : p = q
      · simp only [hpq, if_true, Option.some.injEq] at h
        subst h
        subst hpq
        exact List.mem_cons_self _ _
      · simp [hpq] at h

theorem mdx_ne_docsJson (s : String) : s ++ ".mdx" ≠ "docs.json" := by
  intro h
  have h2 : ((s ++ ".mdx").data.reverse).head? = (("docs.json" : String).data.reverse).head? := by
    rw [h]
  rw [String.data_append, List.reverse_append] at h2
  rw [show (".mdx" : String).data.reverse = ['x', 'd', 'm', '.'] from rfl] at h2
  rw [show ("docs.json" : String).data.reverse =
    ['n', 'o', 's', 'j', '.', 's', 'c', 'o', 'd'] from rfl] at h2
  simp at h2

theorem generatedPages_fst_ne (ms : List ModuleDescriptor) :
    ∀ pr ∈ generatedPages ms, pr.1 ≠ "docs.json" := by
  intro pr hpr
  unfold generatedPages at hpr
  rcases List.mem_append.mp hpr with hABC | hD
  · rcases List.mem_append.mp hABC with hAB | hC
    · rcases List.mem_append.mp hAB with hA | hB
      · simp only [List.mem_cons, List.not_mem_nil, or_false] at hA
        rcases hA with rfl | rfl | rfl | rfl <;> simp
      · obtain ⟨m, _, rfl⟩ := List.mem_map.mp hB
        exact mdx_ne_docsJson ("modules/" ++ m.name)
    · simp only [List.mem_cons, List.not_mem_nil, or_false] at hC
      rcases hC with rfl | rfl <;> simp
  · obtain ⟨sub, hsub, hmem⟩ := List.mem_flatten.mp hD
    obtain ⟨m, _, rfl⟩ := List.mem_map.mp hsub
    obtain ⟨e, _, rfl⟩ := List.mem_map.mp hmem
    exact mdx_ne_docsJson ("api-reference/" ++ m.name ++ "/" ++ e)

theorem updateTabsArr_stable : ∀ (g : Json) (l l' : JsonArr),
    updateTabsArr g l = .ok (some l') → updateTabsArr g l' = .ok (some l')
  | g, .nil, l', h => by simp [updateTabsArr] at h
  | g, .cons t rest, l', h => by
    cases t with
    | null => simp [updateTabsArr] at h
    | obj kvs =>
      rw [updateTabsArr] at h
      cases hlk : objLookup kvs tabKey with
      | some jv =>
        cases jv with
        | str s =>
          rw [hlk] at h
          dsimp only at h
          by_cases hs : s = apiRefTabName
          · rw [if_pos hs] at h
            simp only [Except.ok.injEq, Option.some.injEq] at h
            subst h
            rw [updateTabsArr]
            rw [objLookup_objSet_ne kvs groupsKey tabKey _ (by decide)]
            rw [hlk]
            dsimp only
            rw [if_pos hs, objSet_objSet]
          · rw [if_neg hs] at h
            cases hrec : updateTabsArr g rest with
            | error e => rw [hrec] at h; simp at h
            | ok oo =>
              cases oo with
              | none => rw [hrec] at h; simp at h
              | some rest' =>
                rw [hrec] at h
                simp only [Except.ok.injEq, Option.some.injEq] at h
                subst h
                have ih := updateTabsArr_stable g rest rest' hrec
                rw [updateTabsArr, hlk]
                dsimp only
                rw [if_neg hs, ih]
        | null =>
          rw [hlk] at h
          dsimp only at h
          cases hrec : updateTabsArr g rest with
          | error e => rw [hrec] at h; simp at h
          | ok oo =>
            cases oo with
            | none => rw [hrec] at h; simp at h
            | some rest' =>
              rw [hrec] at h
              simp only [Except.ok.injEq, Option.some.injEq] at h
              subst h
              have ih := updateTabsArr_stable g rest rest' hrec
              rw [updateTabsArr, hlk]
              dsimp only
              rw [ih]
        | bool b =>
          rw [hlk] at h
          dsimp only at h
          cases hrec : updateTabsArr g rest with
          | error e => rw [hrec] at h; simp at h
          | ok oo =>
            cases oo with
            | none => rw [hrec] at h; simp at h
            | some rest' =>
              rw [hrec] at h
              simp only [Except.ok.injEq, Option.some.injEq] at h
              subst h
              have ih := updateTabsArr_stable g rest rest' hrec
              rw [updateTabsArr, hlk]
              dsimp only
              rw [ih]
        | arr l2 =>
          rw [hlk] at h
          dsimp only at h
          cases hrec : updateTabsArr g rest with
          | error e => rw [hrec] at h; simp at h
          | ok oo =>
            cases oo with
            | none => rw [hrec] at h; simp at h
            | some rest' =>
              rw [hrec] at h
              simp only [Except.ok.injEq, Option.some.injEq] at h
              subst h
              have ih := updateTabsArr_stable g rest rest' hrec
              rw [updateTabsArr, hlk]
              dsimp only
              rw [ih]
        | obj o2 =>
          rw [hlk] at h
          dsimp only at h
          cases hrec : updateTabsArr g rest with
          | error e => rw [hrec] at h; simp at h
          | ok oo =>
            cases oo with
            | none => rw [hrec] at h; simp at h
            | some rest' =>
              rw [hrec] at h
              simp only [Except.ok.injEq, Option.some.injEq] at h
              subst h
              have ih := updateTabsArr_stable g rest rest' hrec
              rw [updateTabsArr, hlk]
              dsimp only
              rw [ih]
      | none =>
        rw [hlk] at h
        dsimp only at h
        cases hrec : updateTabsArr g rest with
        | error e => rw [hrec] at h; simp at h
        | ok oo =>
          cases oo with
          | none => rw [hrec] at h; simp at h
          | some rest' =>
            rw [hrec] at h
            simp only [Except.ok.injEq, Option.some.injEq] at h
            subst h
            have ih := updateTabsArr_stable g rest rest' hrec
            rw [updateTabsArr, hlk]
            dsimp only
            rw [ih]
    | bool b =>
      have hred : updateTabsArr g (JsonArr.cons (Json.bool b) rest) =
          (match updateTabsArr g rest with
           | .ok (some r2) => .ok (some (JsonArr.cons (Json.bool b) r2))
           | .ok none => .ok none
           | .error e => .error e) := rfl
      rw [hred] at h
      cases hrec : updateTabsArr g rest with
      | error e => rw [hrec] at h; simp at h
      | ok oo =>
        cases oo with
        | none => rw [hrec] at h; simp at h
        | some rest' =>
          rw [hrec] at h
          simp only [Except.ok.injEq, Option.some.injEq] at h
          subst h
          have ih := updateTabsArr_stable g rest rest' hrec
          have hred2 : updateTabsArr g (JsonArr.cons (Json.bool b) rest') =
              (match updateTabsArr g rest' with
               | .ok (some r2) => .ok (some (JsonArr.cons (Json.bool b) r2))
               | .ok none => .ok none
               | .error e => .error e) := rfl
          rw [hred2, ih]
    | str s2 =>
      have hred : updateTabsArr g (JsonArr.cons (Json.str s2) rest) =
          (match updateTabsArr g rest with
           | .ok (some r2) => .ok (some (JsonArr.cons (Json.str s2) r2))
           | .ok none => .ok none
           | .error e => .error e) := rfl
      rw [hred] at h
      cases hrec : updateTabsArr g rest with
      | error e => rw [hrec] at h; simp at h
      | ok oo =>
        cases oo with
        | none => rw [hrec] at h; simp at h
        | some rest' =>
          rw [hrec] at h
          simp only [Except.ok.injEq, Option.some.injEq] at h
          subst h
          have ih := updateTabsArr_stable g rest rest' hrec
          have hred2 : updateTabsArr g (JsonArr.cons (Json.str s2) rest') =
              (match updateTabsArr g rest' with
               | .ok (some r2) => .ok (some (JsonArr.cons (Json.str s2) r2))
               | .ok none => .ok none
               | .error e => .error e) := rfl
          rw [hred2, ih]
    | arr l2 =>
      have hred : updateTabsArr g (JsonArr.cons (Json.arr l2) rest) =
          (match updateTabsArr g rest with
           | .ok (some r2) => .ok (some (JsonArr.cons (Json.arr l2) r2))
           | .ok none => .ok none
           | .error e => .error e) := rfl
      rw [hred] at h
      cases hrec : updateTabsArr g rest with
      | error e => rw [hrec] at h; simp at h
      | ok oo =>
        cases oo with
        | none => rw [hrec] at h; simp at h
        | some rest' =>
          rw [hrec] at h
          simp only [Except.ok.injEq, Option.some.injEq] at h
          subst h
          have ih := updateTabsArr_stable g rest rest' hrec
          have hred2 : updateTabsArr g (JsonArr.cons (Json.arr l2) rest') =
              (match updateTabsArr g rest' with
               | .ok (some r2) => .ok (some (JsonArr.cons (Json.arr l2) r2))
               | .ok none => .ok none
               | .error e => .error e) := rfl
          rw [hred2, ih]

theorem fsWriteAll_reapply (l : List (String × String)) (f g : FS)
    (hg : ∀ p, p ≠ "docs.json" → g p = fsWriteAll f l p)
    (hne : ∀ pr ∈ l, pr.1 ≠ "docs.json") :
    fsWriteAll g l = g :=
  fsWriteAll_eq_self l g (fun p c h => by
    have hmem := findLastWrite_mem l p c h
    have hp := hne _ hmem
    rw [hg p hp]
    exact fsWriteAll_apply_some l f p c h)

/-- C8: the Doc Generator is idempotent: with an unchanged module
configuration (and the enhancer not running), a second `generateAllDocs` run —
page writes followed by the `docs.json` read-modify-write — produces exactly
the same documentation tree and the same exit status as the first run, for
every starting tree and every configuration. -/
theorem C8_generator_idempotent (ms : List ModuleDescriptor) (fs : FS) :
    generateAllDocs ms (generateAllDocs ms fs).1 = generateAllDocs ms fs := by
  have hW1 : fsWriteAll (fsWriteAll fs (generatedPages ms)) (generatedPages ms) =
      fsWriteAll fs (generatedPages ms) :=
    fsWriteAll_reapply _ fs _ (fun p _ => rfl) (generatedPages_fst_ne ms)
  have hW2 : ∀ C, fsWriteAll
      (fsWrite (fsWriteAll fs (generatedPages ms)) "docs.json" C) (generatedPages ms) =
      fsWrite (fsWriteAll fs (generatedPages ms)) "docs.json" C := fun C =>
    fsWriteAll_reapply _ fs _ (fun p hp => by simp [fsWrite, hp])
      (generatedPages_fst_ne ms)
  unfold generateAllDocs
  dsimp only
  generalize hfs1 : fsWriteAll fs (generatedPages ms) = fs1 at hW1 hW2 ⊢
  cases hdj : fs1 "docs.json" with
  | none =>
    have hu : updateDocsConfig ms fs1 =
        .ok (fs1, ["⚠️ Could not read docs.json, skipping navigation update"]) := by
      unfold updateDocsConfig
      rw [hdj]
    rw [hu]
    dsimp only
    rw [hW1, hu]
  | some content =>
    cases hp : parseJsonTop content.data with
    | none =>
      have hu : updateDocsConfig ms fs1 =
          .ok (fs1, ["⚠️ Could not read docs.json, skipping navigation update"]) := by
        unfold updateDocsConfig
        rw [hdj]
        dsimp only
        rw [hp]
      rw [hu]
      dsimp only
      rw [hW1, hu]
    | some d =>
      cases hnav : navTabsOf d with
      | error e =>
        have hu : updateDocsConfig ms fs1 = .error e := by
          unfold updateDocsConfig
          rw [hdj]
          dsimp only
          rw [hp]
          dsimp only
          rw [hnav]
        rw [hu]
        dsimp only
        rw [hW1, hu]
      | ok triple =>
        obtain ⟨kvs, nkvs, tabs⟩ := triple
        cases hup : updateTabsArr (apiGroupsJson ms) tabs with
        | error e =>
          have hu : updateDocsConfig ms fs1 = .error e := by
            unfold updateDocsConfig
            rw [hdj]
            dsimp only
            rw [hp]
            dsimp only
            rw [hnav]
            dsimp only
            rw [hup]
          rw [hu]
          dsimp only
          rw [hW1, hu]
        | ok oo =>
          cases oo with
          | none =>
            have hu : updateDocsConfig ms fs1 =
                .ok (fs1, ["⚠️ API Reference tab not found in docs.json"]) := by
              unfold updateDocsConfig
              rw [hdj]
              dsimp only
              rw [hp]
              dsimp only
              rw [hnav]
              dsimp only
              rw [hup]
            rw [hu]
            dsimp only
            rw [hW1, hu]
          | some tabs' =>
            have hu : updateDocsConfig ms fs1 =
                .ok (fsWrite fs1 "docs.json" (String.mk (serJson (Json.obj
                    (objSet kvs navKey (.obj (objSet nkvs tabsKey (.arr tabs'))))))),
                  ["✅ Updated docs.json navigation with generated API pages"]) := by
              unfold updateDocsConfig
              rw [hdj]
              dsimp only
              rw [hp]
              dsimp only
              rw [hnav]
              dsimp only
              rw [hup]
            rw [hu]
            dsimp only
            rw [hW2]
            have hdj2 : fsWrite fs1 "docs.json" (String.mk (serJson (Json.obj
                (objSet kvs navKey (.obj (objSet nkvs tabsKey (.arr tabs')))))))
                "docs.json" = some (String.mk (serJson (Json.obj
                (objSet kvs navKey (.obj (objSet nkvs tabsKey (.arr tabs'))))))) := by
              simp [fsWrite]
            have hp2 : parseJsonTop (String.mk (serJson (Json.obj
                (objSet kvs navKey (.obj (objSet nkvs tabsKey (.arr tabs'))))))).data =
                some (Json.obj (objSet kvs navKey (.obj (objSet nkvs tabsKey
                  (.arr tabs'))))) :=
              parseJsonTop_ser _
            have hnav2 : navTabsOf (Json.obj (objSet kvs navKey
                (.obj (objSet nkvs tabsKey (.arr tabs'))))) =
                .ok (objSet kvs navKey (.obj (objSet nkvs tabsKey (.arr tabs'))),
                  objSet nkvs tabsKey (.arr tabs'), tabs') := by
              simp [navTabsOf, objLookup_objSet_self]
            have hup2 : updateTabsArr (apiGroupsJson ms) tabs' = .ok (some tabs') :=
              updateTabsArr_stable _ tabs tabs' hup
            have hu2 : updateDocsConfig ms (fsWrite fs1 "docs.json"
                (String.mk (serJson (Json.obj (objSet kvs navKey
                  (.obj (objSet nkvs tabsKey (.arr tabs')))))))) =
                .ok (fsWrite fs1 "docs.json" (String.mk (serJson (Json.obj
                    (objSet kvs navKey (.obj (objSet nkvs tabsKey (.arr tabs'))))))),
                  ["✅ Updated docs.json navigation with generated API pages"]) := by
              unfold updateDocsConfig
              rw [hdj2]
              dsimp only
              rw [hp2]
              dsimp only
              rw [hnav2]
              dsimp only
              rw [hup2]
              dsimp only
              rw [objSet_objSet, objSet_objSet]
              rw [fsWrite_self _ _ _ hdj2]
            rw [hu2]
